import Mathlib

/-!
Verification of the interaction/state core of the chairs-etc WebXR demo
(src/chairs-etc/src/furniture.js).  The development shallowly embeds the
note lifecycle (creation, hover, editing, removal, persistence), the
delete-confirmation dialog loop, the floor/wall collider synchronisation,
the placement finalizer and the per-frame transport controller, and proves
or refutes the behavioural properties stated for them.

Numbers are modelled as exact rationals; JavaScript values flowing through
the persistence layer are modelled by an explicit JSON-like value type
together with the ToNumber/ToString/truthiness coercions the load path
performs.  External collaborators (renderer raycasts, the gamepad, the
rapier solver) appear as per-frame inputs.
-/

/-- A JavaScript value as it can appear in the persisted notes array
(JSON values plus undefined, which property access on missing keys
produces). -/
inductive JSVal where
  | undefined
  | null
  | bool (b : Bool)
  | num (q : ℚ)
  | str (s : String)
  | arr (xs : List JSVal)
  | obj (fields : List (String × JSVal))

/-- JavaScript truthiness, used by the id fallback at furniture.js:395 and
the content fallback at furniture.js:610. -/
def JSVal.truthy : JSVal → Bool
  | .undefined => false
  | .null => false
  | .bool b => b
  | .num q => q != 0
  | .str s => s != ""
  | .arr _ => true
  | .obj _ => true

/-- Decimal rendering of a rational, as JavaScript prints numbers: exact for
numbers with a terminating decimal expansion (which covers every value a
double can take); other rationals fall back to a fraction rendering. -/
def numToStr (q : ℚ) : String :=
  let sign := if q < 0 then "-" else ""
  let n := q.num.natAbs
  let d := q.den
  match (List.range 40).find? (fun k => d ∣ 10 ^ k) with
  | some k =>
    let scaled := n * (10 ^ k / d)
    if k = 0 then sign ++ toString scaled
    else
      let ip := scaled / 10 ^ k
      let fs := toString (scaled % 10 ^ k)
      let fs := String.mk (List.replicate (k - fs.length) '0') ++ fs
      sign ++ toString ip ++ "." ++ fs
  | none => sign ++ toString n ++ "/" ++ toString d

/-- Digit characters. -/
def isDigit (c : Char) : Bool := '0' ≤ c && c ≤ '9'

/-- Value of a digit string. -/
def digitsVal (l : List Char) : ℕ := l.foldl (fun a c => a * 10 + (c.toNat - 48)) 0

/-- JavaScript ToNumber on strings: optional surrounding spaces, optional
sign, decimal digits with an optional fractional part; the empty string is
0 and anything else is NaN, returned as none (hexadecimal, exponent and
Infinity forms are not modelled; they do not occur in persisted notes). -/
def parseNum (s : String) : Option ℚ :=
  let l := (((s.toList.dropWhile (· = ' ')).reverse.dropWhile (· = ' ')).reverse)
  if l.isEmpty then some 0
  else
    let neg := l.head? = some '-'
    let signed : ℚ → ℚ := fun v => if neg then -v else v
    let l := if l.head? = some '-' || l.head? = some '+' then l.tail else l
    let ip := l.takeWhile isDigit
    let rest := l.drop ip.length
    match rest with
    | [] => if ip.isEmpty then none else some (signed (digitsVal ip))
    | '.' :: fr =>
      if fr.all isDigit && !(ip.isEmpty && fr.isEmpty) then
        some (signed ((digitsVal ip : ℚ) + (digitsVal fr : ℚ) / 10 ^ fr.length))
      else none
    | _ => none

mutual
/-- JavaScript ToString coercion. -/
def JSVal.toStr : JSVal → String
  | .undefined => "undefined"
  | .null => "null"
  | .bool b => if b then "true" else "false"
  | .num q => numToStr q
  | .str s => s
  | .arr xs => arrJoin xs
  | .obj _ => "[object Object]"

/-- Array.prototype.toString: elements joined by commas, with null and
undefined elements printing as the empty string. -/
def arrJoin : List JSVal → String
  | [] => ""
  | x :: xs =>
    (match x with
     | JSVal.undefined => ""
     | JSVal.null => ""
     | v => v.toStr)
    ++ (if xs.isEmpty then "" else ",") ++ arrJoin xs
end

/-- JavaScript ToNumber coercion; none models NaN.  Arrays and objects
coerce through their string form, as in JavaScript. -/
def jsToNum : JSVal → Option ℚ
  | .undefined => none
  | .null => some 0
  | .bool b => some (if b then 1 else 0)
  | .num q => some q
  | .str s => parseNum s
  | .arr xs => parseNum (JSVal.toStr (.arr xs))
  | .obj f => parseNum (JSVal.toStr (.obj f))

/-- Optional-chained property access item?.k: undefined on non-objects and
missing keys. -/
def JSVal.get : JSVal → String → JSVal
  | .obj fields, k =>
    match fields.find? (fun p => p.1 = k) with
    | some p => p.2
    | none => .undefined
  | _, _ => .undefined

/-- Optional-chained index access v?.[i]: array element, single-character
string for strings, undefined otherwise. -/
def JSVal.idx : JSVal → ℕ → JSVal
  | .arr xs, i => xs.getD i .undefined
  | .str s, i =>
    match s.toList.get? i with
    | some c => .str (String.mk [c])
    | none => .undefined
  | _, _ => .undefined

/-- Exact 3D vector. -/
structure Vec3 where
  x : ℚ
  y : ℚ
  z : ℚ
deriving DecidableEq, Repr

/-- A note marker (furniture.js:394-403): persisted identity and content,
its world position, and the claim-relevant visual state of its sub-parts
(label visibility of the uikit root, scale of the torus halo).  The key
field is the model surrogate for JavaScript object identity. -/
structure Note where
  key : ℕ
  id : JSVal
  content : String
  pos : Vec3
  rootVisible : Bool
  torusScale : ℚ

/-- The persisted slot under the fixed key chairs-etc:notes: absent,
unparsable text, or a parsed JSON value. -/
inductive StoreVal where
  | absent
  | malformed
  | val (v : JSVal)

/-- The note-interaction state of FurnitureSystem: the tracked collections,
the hover slot, the two dialog slots, the load-once flag, the fresh-key
counter (modelling object identity and the Date.now-based id salt), and the
persisted store. -/
structure SysState where
  ready : Bool
  notes : List Note
  notePickables : List ℕ
  hoveredNote : Option ℕ
  activeNoteInput : Option ℕ
  activeConfirm : Option ℕ
  notesLoaded : Bool
  nextKey : ℕ
  store : StoreVal

/-- Generated note id (furniture.js:395 uses Date.now plus a random salt;
the model draws freshness from the per-note key counter, keeping the two
properties the code relies on: generated ids are truthy strings and fresh
per creation). -/
def genId (k : ℕ) : String := "note-" ++ toString k

/-- Serialization of one note (furniture.js:587-591). -/
def serNote (n : Note) : JSVal :=
  .obj [("id", n.id), ("content", .str n.content),
        ("position", .arr [.num n.pos.x, .num n.pos.y, .num n.pos.z])]

/-- The _saveNotesToStorage method (furniture.js:585-596): writes the
serialized array under the fixed key. -/
def saveNotesToStorage (st : SysState) : SysState :=
  { st with store := .val (.arr (st.notes.map serNote)) }

/-- The createNoteMarker method (furniture.js:335-411) restricted to tracked
state: allocates the note with a stored id when truthy and a generated one
otherwise, registers the four pickable sub-parts (sphere, torus, bar, dot)
with back-references, appends the note, persists, and optionally opens the
text editor for it. -/
def createNoteMarker (position : Vec3) (content : String) (openInput : Bool)
    (id : JSVal) (st : SysState) : SysState :=
  let key := st.nextKey
  let nid : JSVal := if id.truthy then id else .str (genId key)
  let note : Note :=
    { key := key, id := nid, content := content, pos := position,
      rootVisible := false, torusScale := 1 }
  let st :=
    { st with
      notePickables := st.notePickables ++ [key, key, key, key],
      notes := st.notes ++ [note],
      nextKey := key + 1 }
  let st := saveNotesToStorage st
  if openInput then { st with activeNoteInput := some key } else st

/-- The _removeNote method (furniture.js:576-583): nothing on a null
argument; otherwise strips the note and its pickables from the tracked
collections, unconditionally clears the hover slot, and persists. -/
def removeNote (note : Option ℕ) (st : SysState) : SysState :=
  match note with
  | none => st
  | some k =>
    let st :=
      { st with
        notePickables := st.notePickables.filter (fun p => p ≠ k),
        notes := st.notes.filter (fun n => n.key ≠ k),
        hoveredNote := none }
    saveNotesToStorage st

/-- Component coercion Number(x) followed by the zero fallback of the
logical-or (furniture.js:606-608): NaN becomes 0, every number keeps its
value (0 is mapped to 0 by the fallback as well). -/
def coerceComp (v : JSVal) : ℚ := (jsToNum v).getD 0

/-- Position restoration for one stored item (furniture.js:605-609). -/
def loadPos (item : JSVal) : Vec3 :=
  ⟨coerceComp ((item.get "position").idx 0),
   coerceComp ((item.get "position").idx 1),
   coerceComp ((item.get "position").idx 2)⟩

/-- Content restoration for one stored item (furniture.js:610): falsy
content (missing, null, 0, false, empty) becomes the empty string, anything
else is coerced to a string. -/
def loadContent (item : JSVal) : String :=
  let c := item.get "content"
  if c.truthy then c.toStr else ""

/-- The _loadNotesFromStorage method (furniture.js:598-615): absence and
malformed or non-array content abort the load silently; otherwise every
array element produces one note via createNoteMarker with the editor
closed and the stored id passed through. -/
def loadNotesFromStorage (st : SysState) : SysState :=
  match st.store with
  | .absent => st
  | .malformed => st
  | .val v =>
    match v with
    | .arr items =>
      items.foldl
        (fun s item =>
          createNoteMarker (loadPos item) (loadContent item) false
            (item.get "id") s) st
    | _ => st

/-- Per-frame external inputs to the note-interaction part of update: the
right controller's presence (target-ray pose) and gamepad, the button edges
read through getButtonClick and getButtonDown, the raycast result against
the note pickables (index of the nearest hit pickable, none for a miss),
the raycast result against the floor, the carried cube's current position,
and the dialog-loop raycast results against the confirm and cancel
targets. -/
structure NotesInput where
  controllerPresent : Bool
  gamepadPresent : Bool
  triggerDown : Bool
  button1Click : Bool
  button2Click : Bool
  squeezeClick : Bool
  pickIdx : Option ℕ
  target : Option Vec3
  cubePos : Vec3
  overConfirm : Bool
  overCancel : Bool
deriving DecidableEq, Repr

/-- Effect of a hover change on one note (furniture.js:208-216): the
previously hovered note's torus is reset, every label is hidden, and the
newly hovered note's torus is emphasized with its label shown. -/
def hoverMapNote (prev next : Option ℕ) (n : Note) : Note :=
  if next = some n.key then { n with torusScale := 23/20, rootVisible := true }
  else if prev = some n.key then { n with torusScale := 1, rootVisible := false }
  else { n with rootVisible := false }

/-- Hover re-resolution (furniture.js:202-217): when the hovered note
changed, reset the previous torus, hide every label, record the new hover,
and emphasize the new note's torus and label. -/
def hoverStep (pickIdx : Option ℕ) (st : SysState) : SysState :=
  let hovered : Option ℕ := pickIdx.bind (fun i => st.notePickables.get? i)
  if st.hoveredNote = hovered then st
  else
    { st with
      notes := st.notes.map (hoverMapNote st.hoveredNote hovered),
      hoveredNote := hovered }

/-- The _openDeleteConfirm method (furniture.js:489-574) restricted to
tracked state: any active dialog is torn down first and the new one is
recorded with the note it captured. -/
def openDeleteConfirm (k : ℕ) (st : SysState) : SysState :=
  { st with activeConfirm := some k }

/-- The dialog's own per-frame tick (the onFrame closure,
furniture.js:546-566): skipped without a target-ray pose, it reacts only to
a BUTTON_1 click, removing the captured note and tearing down when the ray
is over the confirm target, tearing down only when it is over the cancel
target, and doing nothing otherwise. -/
def confirmStep (inp : NotesInput) (st : SysState) : SysState :=
  match st.activeConfirm with
  | none => st
  | some k =>
    if !inp.controllerPresent then st
    else if inp.gamepadPresent && inp.button1Click then
      if inp.overConfirm then
        let st := removeNote (some k) st
        { st with activeConfirm := none }
      else if inp.overCancel then { st with activeConfirm := none }
      else st
    else st

/-- The _openNoteInput method (furniture.js:413-487) restricted to tracked
state: replaces any active editor with one bound to the given note. -/
def openNoteInput (k : ℕ) (st : SysState) : SysState :=
  { st with activeNoteInput := some k }

/-- First-frame restoration of persisted notes (furniture.js:156-160),
guarded by the load-once flag. -/
def frameLoad (st : SysState) : SysState :=
  if st.notesLoaded then st
  else { loadNotesFromStorage st with notesLoaded := true }

/-- The BUTTON_2 dispatch (furniture.js:219-229): with a hovered note the
delete dialog opens for it; otherwise, when no dialog is active, a note is
created at the target point (or at the carried cube's position without one)
with its editor opened. -/
def frameButtons (inp : NotesInput) (st : SysState) : SysState :=
  if inp.gamepadPresent && inp.button2Click then
    match st.hoveredNote with
    | some k => openDeleteConfirm k st
    | none =>
      if st.activeConfirm = none then
        createNoteMarker (inp.target.getD inp.cubePos) "" true .undefined st
      else st
  else st

/-- The BUTTON_1 editor for the hovered note (furniture.js:231-234). -/
def frameEdit (inp : NotesInput) (st : SysState) : SysState :=
  match st.hoveredNote with
  | some k => if inp.gamepadPresent && inp.button1Click then openNoteInput k st else st
  | none => st

/-- The SQUEEZE removal of the hovered note (furniture.js:236-239). -/
def frameSqueeze (inp : NotesInput) (st : SysState) : SysState :=
  match st.hoveredNote with
  | some k => if inp.gamepadPresent && inp.squeezeClick then removeNote (some k) st else st
  | none => st

/-- One tick of FurnitureSystem.update (furniture.js:89-301) restricted to
the note-interaction state.  Ordering follows the source: the not-ready
guard, the first-frame load of persisted notes, the early return without a
target-ray pose, hover re-resolution, the BUTTON_2 dispatch, the BUTTON_1
editor, the SQUEEZE removal, and finally the delete-dialog loop.  The
trigger-driven finalizer and the physics blocks touch none of this state
and are modelled separately. -/
def notesFrame (inp : NotesInput) (st : SysState) : SysState :=
  if !st.ready then st
  else
    let st := frameLoad st
    if !inp.controllerPresent then st
    else
      confirmStep inp
        (frameSqueeze inp (frameEdit inp (frameButtons inp (hoverStep inp.pickIdx st))))

/-- Whitespace trimming of the committed text (input.value.trim() at
furniture.js:440), written structurally over the character list; only the
space character is modelled. -/
def strTrim (s : String) : String :=
  ⟨((s.data.dropWhile (· = ' ')).reverse.dropWhile (· = ' ')).reverse⟩

/-- Commit path of the 2D editor (the save button handler,
furniture.js:439-459): trims the text into the captured note's content,
persists, and closes the editor. -/
def editorSaveStep (text : String) (st : SysState) : SysState :=
  match st.activeNoteInput with
  | none => st
  | some k =>
    let st :=
      { st with notes := st.notes.map (fun n =>
          if n.key = k then { n with content := strTrim text } else n) }
    let st := saveNotesToStorage st
    { st with activeNoteInput := none }

/-- Cancel path of the 2D editor (furniture.js:465-468). -/
def editorCancelStep (st : SysState) : SysState :=
  match st.activeNoteInput with
  | none => st
  | some _ => { st with activeNoteInput := none }

/-- Delete path of the 2D editor (furniture.js:474-478): removes the note
the editor captured and closes. -/
def editorDeleteStep (st : SysState) : SysState :=
  match st.activeNoteInput with
  | none => st
  | some k =>
    let st := removeNote (some k) st
    { st with activeNoteInput := none }

/-- Events driving the note-interaction state: the asynchronous physics
module arrival (before which every tick is a no-op), per-frame ticks, and
the DOM editor's three button handlers, which fire between frames. -/
inductive NoteEvent where
  | rapierLoaded
  | frame (inp : NotesInput)
  | editorSave (text : String)
  | editorCancel
  | editorDelete

/-- Initial note-interaction state (init, furniture.js:45-50), with the
persisted slot holding an arbitrary prior value. -/
def initSysState (store : StoreVal) : SysState :=
  { ready := false, notes := [], notePickables := [], hoveredNote := none,
    activeNoteInput := none, activeConfirm := none, notesLoaded := false,
    nextKey := 0, store := store }

def noteStep : NoteEvent → SysState → SysState
  | .rapierLoaded => fun st => { st with ready := true }
  | .frame inp => notesFrame inp
  | .editorSave t => editorSaveStep t
  | .editorCancel => editorCancelStep
  | .editorDelete => editorDeleteStep

def runNotes (store : StoreVal) (evs : List NoteEvent) : SysState :=
  evs.foldl (fun st e => noteStep e st) (initSysState store)

/-- Persisted projection of a note: identity, content and position (the
fields the round-trip claims compare). -/
def Note.proj (n : Note) : JSVal × String × Vec3 := (n.id, n.content, n.pos)

/-- The note createNoteMarker allocates for given arguments and key
counter. -/
def mkNoteDef (p : Vec3) (c : String) (i : JSVal) (k : ℕ) : Note :=
  { key := k, id := if i.truthy then i else .str (genId k), content := c,
    pos := p, rootVisible := false, torusScale := 1 }

/-- The notes the load path appends for a stored array, starting at a given
key counter. -/
def loadedNotes (items : List JSVal) (k : ℕ) : List Note :=
  match items with
  | [] => []
  | item :: rest =>
    mkNoteDef (loadPos item) (loadContent item) (item.get "id") k
      :: loadedNotes rest (k + 1)

/-- The hover the main tick resolves from the pickable raycast. -/
def resolvedHover (inp : NotesInput) (st : SysState) : Option ℕ :=
  inp.pickIdx.bind (fun i => st.notePickables.get? i)

/-- Keys of the tracked notes. -/
def noteKeys (st : SysState) : List ℕ := st.notes.map Note.key

/-- Inductive invariant of the note-interaction state: the hover slot
references a tracked note, pickable back-references are tracked, keys are
bounded by the counter and pairwise distinct, and at most one note has a
visible label. -/
def SysInv (st : SysState) : Prop :=
  (∀ k, st.hoveredNote = some k → k ∈ noteKeys st) ∧
  (∀ p ∈ st.notePickables, p ∈ noteKeys st) ∧
  (∀ n ∈ st.notes, n.key < st.nextKey) ∧
  (noteKeys st).Nodup ∧
  (∀ a ∈ st.notes, ∀ b ∈ st.notes,
    a.rootVisible = true → b.rootVisible = true → a.key = b.key)

/-- A frame input with a live controller and nothing pressed or hit. -/
def inpBase : NotesInput :=
  { controllerPresent := true, gamepadPresent := true, triggerDown := false,
    button1Click := false, button2Click := false, squeezeClick := false,
    pickIdx := none, target := none, cubePos := ⟨0, 0, 0⟩,
    overConfirm := false, overCancel := false }

/-- Event trace building the three notes of the round-trip scenario through
the real operation path: each BUTTON_2 press creates a note and opens its
editor, whose save button commits the content. -/
def evsRoundTrip : List NoteEvent :=
  [ .rapierLoaded,
    .frame { inpBase with button2Click := true, target := some ⟨1, 0, 1⟩ },
    .editorSave "buy lamp",
    .frame { inpBase with button2Click := true, target := some ⟨0, 0, 0⟩ },
    .editorSave "",
    .frame { inpBase with button2Click := true, target := some ⟨-2, 0, 3⟩ },
    .editorSave "move rug" ]

/-- Trace reaching a state whose hover slot is empty while a label is still
visible: create note 0, create note 1 (the editor now captures note 1),
hover note 0 (its label shows), then the editor's delete button removes
note 1, which clears the hover slot without touching note 0's label. -/
def evsStaleLabel : List NoteEvent :=
  [ .rapierLoaded,
    .frame { inpBase with button2Click := true, target := some ⟨1, 0, 1⟩ },
    .frame { inpBase with button2Click := true, target := some ⟨2, 0, 2⟩ },
    .frame { inpBase with pickIdx := some 0 },
    .editorDelete ]

/-- Trace reaching a state that still holds a stale reference (in the open
editor) to a note that has already been removed, while another note is
hovered: create notes 0 and 1 (editor captures 1), hover note 1, remove it
with SQUEEZE, then hover note 0. -/
def evsStaleRef : List NoteEvent :=
  [ .rapierLoaded,
    .frame { inpBase with button2Click := true, target := some ⟨1, 0, 1⟩ },
    .frame { inpBase with button2Click := true, target := some ⟨2, 0, 2⟩ },
    .frame { inpBase with pickIdx := some 4 },
    .frame { inpBase with pickIdx := some 4, squeezeClick := true },
    .frame { inpBase with pickIdx := some 0 } ]

/-- Trace opening the delete-confirmation dialog for note 0: create it,
then press BUTTON_2 while hovering it. -/
def evsDialog : List NoteEvent :=
  [ .rapierLoaded,
    .frame { inpBase with button2Click := true, target := some ⟨1, 0, 1⟩ },
    .frame { inpBase with pickIdx := some 0, button2Click := true } ]

/-- The state with the dialog open for note 0. -/
def stDialog : SysState := runNotes .absent evsDialog

/-- A frame pressing the primary (BUTTON_2) action with the pointer ray over
the dialog's confirm target and off every note pickable. -/
def inpPrimaryOverConfirm : NotesInput :=
  { inpBase with button2Click := true, overConfirm := true }

/-- A frame pressing BUTTON_1 with the pointer ray over the dialog's
confirm target. -/
def inpSecondaryOverConfirm : NotesInput :=
  { inpBase with button1Click := true, overConfirm := true }

/-- A stored array exercising the load coercions: a non-object element, an
object with every field missing, and an object with non-numeric and string
position components, numeric content and a falsy id. -/
def itemsCoerce : List JSVal :=
  [ .num 7,
    .obj [],
    .obj [("position", .arr [.str "abc", .str "25", .null]),
          ("content", .num 3), ("id", .num 0)] ]

/-- Quaternion with exact components (the model never composes rotations;
it only carries the values the code reads and writes). -/
structure Quat where
  qx : ℚ
  qy : ℚ
  qz : ℚ
  qw : ℚ
deriving DecidableEq, Repr

def Quat.ident : Quat := ⟨0, 0, 0, 1⟩

/-- Creation site of a collider: the ground slab, a discovered wall, or a
placed furniture item. -/
inductive ColliderKind where
  | floor
  | wall
  | furniture
deriving DecidableEq, Repr

/-- A rapier cuboid collider as the code configures it: half extents,
translation, friction and an optional quaternion (identity when the code
leaves the default). -/
structure Collider where
  kind : ColliderKind
  hx : ℚ
  hy : ℚ
  hz : ℚ
  tx : ℚ
  ty : ℚ
  tz : ℚ
  friction : ℚ
  quat : Quat
deriving DecidableEq, Repr

/-- The carried object's dynamic rigid body as the code reads and writes
it. -/
structure CubeBody where
  pos : Vec3
  quat : Quat
  linvel : Vec3
  angvel : Vec3
  mass : ℚ
deriving DecidableEq, Repr

/-- A fixed rigid body committed by the finalizer. -/
structure FixedBody where
  pos : Vec3
  quat : Quat
deriving DecidableEq, Repr

inductive ModelParent where
  | cube
  | scene
deriving DecidableEq, Repr

/-- The loaded furniture model: its parent in the scene graph, its world
transform (carried abstractly as a value the scene-graph attach preserves),
and its shadow flag. -/
structure ModelState where
  parent : ModelParent
  worldPos : Vec3
  castShadow : Bool
deriving DecidableEq, Repr

/-- The physics/transport state of FurnitureSystem: collider table with a
fresh-id counter, the designated floor collider id, the carried body, the
placed fixed bodies and models, the visual floor height and cube pose, the
first-frame and load flags, and logs of the external rapier calls the tick
makes (world steps with their timestep, torque impulses, and translation
impulses recorded by their defining data). -/
structure PhysState where
  ready : Bool
  colliders : List (ℕ × Collider)
  nextColliderId : ℕ
  floorColliderId : ℕ
  fixedBodies : List FixedBody
  rigidBody : CubeBody
  floorY : ℚ
  cubeInit : Bool
  cubePos : Vec3
  cubeQuat : Quat
  furnitureModel : Option ModelState
  placedModels : List ModelState
  furnitureLoading : Bool
  furnitureToSpawn : Bool
  targetMarkerVisible : Bool
  stepLog : List ℚ
  torqueLog : List Vec3
  transImpulseLog : List (Vec3 × ℚ)
deriving DecidableEq, Repr

/-- State established by the asynchronous physics-module continuation in
init (furniture.js:51-85): a ground cuboid of half extents (10, 0, 10) at
the origin with friction 0.5, and a dynamic carried body spawned at
(0, 3, 0); its mass is an external value of the solver, kept abstract as a
parameter. -/
def physInit (m : ℚ) : PhysState :=
  { ready := true,
    colliders := [(0, { kind := .floor, hx := 10, hy := 0, hz := 10,
                        tx := 0, ty := 0, tz := 0, friction := 1/2,
                        quat := Quat.ident })],
    nextColliderId := 1, floorColliderId := 0,
    fixedBodies := [],
    rigidBody := { pos := ⟨0, 3, 0⟩, quat := Quat.ident, linvel := ⟨0, 0, 0⟩,
                   angvel := ⟨0, 0, 0⟩, mass := m },
    floorY := 0, cubeInit := false, cubePos := ⟨0, 0, 0⟩,
    cubeQuat := Quat.ident,
    furnitureModel := none, placedModels := [], furnitureLoading := false,
    furnitureToSpawn := false, targetMarkerVisible := false,
    stepLog := [], torqueLog := [], transImpulseLog := [] }

inductive PlaneOrientation where
  | horizontal
  | vertical
deriving DecidableEq, Repr

/-- A discovered surface descriptor, together with the external result of
the downward probe raycast against its mesh (furniture.js:137-139), which
only the floor branch consults. -/
structure PlaneInfo where
  orientation : PlaneOrientation
  semanticLabel : String
  width : ℚ
  height : ℚ
  pos : Vec3
  quat : Quat
  probeHit : Option Vec3
deriving DecidableEq, Repr

/-- The ratk.onPlaneAdded handler (furniture.js:125-154): vertical planes
insert a wall collider at the plane pose (friction left at the rapier
default 0.5); a floor-labelled plane aborts when the probe misses, and
otherwise removes the previous floor collider, inserts the replacement slab
at the probed height, updates the visual floor height, and lifts the
carried body above it. -/
def onPlaneAdded (p : PlaneInfo) (st : PhysState) : PhysState :=
  if p.orientation = .vertical then
    { st with
      colliders := st.colliders ++
        [(st.nextColliderId,
          { kind := .wall, hx := p.width, hy := 0, hz := p.height,
            tx := p.pos.x, ty := p.pos.y, tz := p.pos.z, friction := 1/2,
            quat := p.quat })],
      nextColliderId := st.nextColliderId + 1 }
  else if p.semanticLabel = "floor" then
    match p.probeHit with
    | none => st
    | some hit =>
      { st with
        colliders :=
          (st.colliders.filter (fun c => c.1 ≠ st.floorColliderId)) ++
          [(st.nextColliderId,
            { kind := .floor, hx := 10, hy := 0, hz := 10,
              tx := 0, ty := hit.y, tz := 0, friction := 1/2,
              quat := Quat.ident })],
        floorColliderId := st.nextColliderId,
        nextColliderId := st.nextColliderId + 1,
        floorY := hit.y,
        rigidBody := { st.rigidBody with pos := ⟨0, hit.y + 3, 0⟩ } }
  else st

/-- The finalizeFurniturePosition method (furniture.js:303-333): a silent
no-op without an attached model; otherwise the model is reattached under
the scene (the scene-graph attach preserves its world transform) with
shadow casting enabled, one fixed body is created at the carrying body's
current pose with one matching cuboid collider, and the carrying body is
reset to the spawn position with zero linear and angular velocity (its
rotation is left as is). -/
def finalizeFurniturePosition (st : PhysState) : PhysState :=
  match st.furnitureModel with
  | none => st
  | some m =>
    { st with
      furnitureModel := none,
      placedModels := st.placedModels ++
        [{ m with parent := .scene, castShadow := true }],
      fixedBodies := st.fixedBodies ++
        [{ pos := st.rigidBody.pos, quat := st.rigidBody.quat }],
      colliders := st.colliders ++
        [(st.nextColliderId,
          { kind := .furniture, hx := 1/2, hy := 1/2, hz := 1/2,
            tx := st.rigidBody.pos.x, ty := st.rigidBody.pos.y,
            tz := st.rigidBody.pos.z, friction := 1/2,
            quat := st.rigidBody.quat })],
      nextColliderId := st.nextColliderId + 1,
      rigidBody := { st.rigidBody with
        pos := ⟨0, 3, 0⟩,
        linvel := ⟨0, 0, 0⟩,
        angvel := ⟨0, 0, 0⟩ } }

def Vec3.sub (a b : Vec3) : Vec3 := ⟨a.x - b.x, a.y - b.y, a.z - b.z⟩

def Vec3.lengthSq (v : Vec3) : ℚ := v.x ^ 2 + v.y ^ 2 + v.z ^ 2

/-- The pose and velocities the external solver leaves on the carried body
after stepping the world. -/
structure SolverOutcome where
  pos : Vec3
  quat : Quat
  linvel : Vec3
  angvel : Vec3
deriving DecidableEq, Repr

/-- Per-frame external inputs to the physics part of update: the frame's
elapsed time, the controller and gamepad presence, the trigger edge, the
floor raycast result, the thumbstick x axis, and the solver outcome of this
frame's world step. -/
structure PhysInput where
  delta : ℚ
  controllerPresent : Bool
  gamepadPresent : Bool
  triggerDown : Bool
  target : Option Vec3
  thumbstickX : ℚ
  solver : SolverOutcome
deriving DecidableEq, Repr

/-- First-frame scene setup (furniture.js:92-161) and the pending-spawn
block (furniture.js:163-175) restricted to the physics state: the
first-frame flag, and the in-flight guard that starts at most one asset
load while clearing the pending request. -/
def physPrelude (st : PhysState) : PhysState :=
  let st := if st.cubeInit then st else { st with cubeInit := true }
  if st.furnitureToSpawn then
    if st.furnitureModel = none && !st.furnitureLoading then
      { st with furnitureLoading := true, furnitureToSpawn := false }
    else { st with furnitureToSpawn := false }
  else st

/-- The target block (furniture.js:241-262): with a floor target the marker
is shown there and the control law runs — arrival inside the epsilon zeroes
the linear velocity, otherwise one translation impulse is recorded;
without a target the marker is hidden.  The guard length(dir) less than
0.01 is expressed exactly by its square, and an impulse entry (dir, mass)
stands for applyImpulse of the vector (0.1 x mass / length dir) x dir. -/
def physTargetBlock (inp : PhysInput) (st : PhysState) : PhysState :=
  match inp.target with
  | some t =>
    let st := { st with targetMarkerVisible := true }
    let dir := t.sub st.rigidBody.pos
    if dir.lengthSq < 1/10000 then
      { st with rigidBody := { st.rigidBody with linvel := ⟨0, 0, 0⟩ } }
    else
      { st with transImpulseLog := st.transImpulseLog ++ [(dir, st.rigidBody.mass)] }
  | none => { st with targetMarkerVisible := false }

/-- The tail of the tick (furniture.js:264-288): the thumbstick torque
impulse, exactly one world step with the frame's elapsed time (after which
the carried body holds the solver outcome), the physics-to-visual pose
copy, and the out-of-bounds teleport. -/
def physStepBlock (inp : PhysInput) (st : PhysState) : PhysState :=
  let st :=
    { st with torqueLog :=
        st.torqueLog ++ [(⟨0, inp.thumbstickX * (-(6/100)), 0⟩ : Vec3)] }
  let st :=
    { st with
      stepLog := st.stepLog ++ [inp.delta],
      rigidBody := { st.rigidBody with
        pos := inp.solver.pos,
        quat := inp.solver.quat,
        linvel := inp.solver.linvel,
        angvel := inp.solver.angvel } }
  let st :=
    { st with
      cubePos := st.rigidBody.pos,
      cubeQuat := st.rigidBody.quat }
  if st.cubePos.y < (-5 : ℚ) then
    { st with rigidBody := { st.rigidBody with pos := ⟨0, 3, 0⟩ } }
  else st

/-- One tick of FurnitureSystem.update (furniture.js:89-301) restricted to
the physics/transport state.  Ordering follows the source: the not-ready
guard, first-frame setup and the pending-spawn block, the early return
without a target-ray pose (hiding the target marker), the trigger-driven
finalizer, the target block, then torque, step, pose copy and the
out-of-bounds teleport.  The note-interaction blocks touch none of this
state.  When the controller exposes a target-ray pose but no gamepad, the
getAxis call of furniture.js:264 raises a TypeError that aborts the frame;
the returned state is the one observed at that abort, and in particular no
torque and no step happen on such a frame. -/
def physUpdate (inp : PhysInput) (st : PhysState) : PhysState :=
  if !st.ready then st
  else
    let st := physPrelude st
    if !inp.controllerPresent then { st with targetMarkerVisible := false }
    else
      let st :=
        if inp.gamepadPresent && inp.triggerDown then finalizeFurniturePosition st
        else st
      let st := physTargetBlock inp st
      if !inp.gamepadPresent then st
      else physStepBlock inp st

/-- Completion continuation of the gltf load (furniture.js:166-172): the
model arrives attached under the carried cube. -/
def modelArrive (wp : Vec3) (st : PhysState) : PhysState :=
  if st.furnitureLoading then
    { st with
      furnitureModel := some { parent := .cube, worldPos := wp, castShadow := false },
      furnitureLoading := false }
  else st

/-- Events driving the physics state: per-frame ticks, plane discovery
callbacks, and asset-load completions. -/
inductive PhysEvent where
  | update (inp : PhysInput)
  | planeAdded (p : PlaneInfo)
  | arrive (wp : Vec3)
deriving DecidableEq, Repr

def physStep : PhysEvent → PhysState → PhysState
  | .update inp => physUpdate inp
  | .planeAdded p => onPlaneAdded p
  | .arrive wp => modelArrive wp

def runPhys (m : ℚ) (evs : List PhysEvent) : PhysState :=
  evs.foldl (fun st e => physStep e st) (physInit m)

/-- The floor colliders present in the world. -/
def floorColliders (st : PhysState) : List (ℕ × Collider) :=
  st.colliders.filter (fun c => c.2.kind = .floor)

/-- Invariant of the physics state: collider ids are fresh and distinct,
and exactly one floor collider exists, carrying the designated id and
sitting at the visual floor's height. -/
def PhysInv (st : PhysState) : Prop :=
  (∀ c ∈ st.colliders, c.1 < st.nextColliderId) ∧
  (st.colliders.map Prod.fst).Nodup ∧
  (∃ c : Collider, floorColliders st = [(st.floorColliderId, c)] ∧ c.ty = st.floorY)

/-- A floor-labelled horizontal plane whose probe hits at height 1.2. -/
def floorPlane12 : PlaneInfo :=
  { orientation := .horizontal, semanticLabel := "floor", width := 4, height := 3,
    pos := ⟨0, 6/5, 0⟩, quat := Quat.ident, probeHit := some ⟨0, 6/5, 0⟩ }

/-- A solver outcome leaving the body at rest just above the floor. -/
def solverRest : SolverOutcome :=
  { pos := ⟨0, 1/2, 0⟩, quat := Quat.ident, linvel := ⟨0, 0, 0⟩,
    angvel := ⟨0, 0, 0⟩ }

/-- A frame input with a live controller and gamepad and no target. -/
def physInpBase : PhysInput :=
  { delta := 1/60, controllerPresent := true, gamepadPresent := true,
    triggerDown := false, target := none, thumbstickX := 0,
    solver := solverRest }

/-- A frame on which the right controller exposes no target-ray pose. -/
def physInpNoController : PhysInput :=
  { physInpBase with controllerPresent := false }

/-- Real-valued 3D vector for the transport controller, whose control law
divides by a euclidean length (three.js Vector3.normalize); the rationals
cannot express that square root, so this part of the embedding lives over
the reals. -/
structure RVec3 where
  x : ℝ
  y : ℝ
  z : ℝ

noncomputable def RVec3.len (v : RVec3) : ℝ := Real.sqrt (v.x ^ 2 + v.y ^ 2 + v.z ^ 2)

def RVec3.subv (a b : RVec3) : RVec3 := ⟨a.x - b.x, a.y - b.y, a.z - b.z⟩

def RVec3.addv (a b : RVec3) : RVec3 := ⟨a.x + b.x, a.y + b.y, a.z + b.z⟩

def RVec3.smul (c : ℝ) (v : RVec3) : RVec3 := ⟨c * v.x, c * v.y, c * v.z⟩

def RVec3.zero : RVec3 := ⟨0, 0, 0⟩

/-- The carried body as the transport controller sees it. -/
structure CarryBody where
  pos : RVec3
  vel : RVec3
  mass : ℝ

/-- Per-frame transport control law (furniture.js:241-262), as the pair of
rapier calls it makes: a setLinvel argument when the body is within the
arrival epsilon of the target, otherwise an applyImpulse argument equal to
the normalized displacement scaled by the speed constant 0.1 and then by
the body's mass. -/
noncomputable def transportControl (target : RVec3) (b : CarryBody) :
    Option RVec3 × Option RVec3 :=
  let dir := target.subv b.pos
  if dir.len < 1/100 then (some RVec3.zero, none)
  else (none, some (RVec3.smul b.mass (RVec3.smul (1/10) (RVec3.smul (1 / dir.len) dir))))

/-- Modelled from the spec: the external physics collaborator (section 6)
applies an impulse as an instantaneous momentum change (velocity changes by
impulse over mass) and a world step advances position by the velocity times
the elapsed time; gravity and contact forces, which act orthogonally to the
floor-plane motion, are elided.  One transportTick is the control law of
furniture.js:241-262 followed by such a step. -/
noncomputable def transportTick (dt : ℝ) (target : RVec3) (b : CarryBody) : CarryBody :=
  let c := transportControl target b
  let vel := match c.1 with
    | some v => v
    | none => b.vel
  let vel := match c.2 with
    | some j => vel.addv (RVec3.smul (1 / b.mass) j)
    | none => vel
  { b with vel := vel, pos := b.pos.addv (RVec3.smul dt vel) }

/-- The spec's arrival scenario: body starting at rest at the origin with
unit mass, target at distance 5 along the z axis, fixed timestep 0.1. -/
noncomputable def tickIter : ℕ → CarryBody
  | 0 => { pos := ⟨0, 0, 0⟩, vel := ⟨0, 0, 0⟩, mass := 1 }
  | n + 1 => transportTick (1/10) ⟨0, 0, 5⟩ (tickIter n)

/-- Distance from the carried body to the scenario target. -/
noncomputable def distToTarget (b : CarryBody) : ℝ :=
  (RVec3.subv ⟨0, 0, 5⟩ b.pos).len

/-- Exact integer shadow of transportTick on the z axis for the arrival
scenario: the first component is the position z in hundredths, the second
the velocity z in tenths (on the axis the displacement length is the
absolute difference, so the arrival guard becomes a natAbs test and one
tick adds the new velocity in hundredths to the position). -/
def zTick (p : ℤ × ℤ) : ℤ × ℤ :=
  let d := 500 - p.1
  if d.natAbs < 1 then (p.1, 0)
  else
    let v := p.2 + (if 0 < d then 1 else -1)
    (p.1 + v, v)

def zIter : ℕ → ℤ × ℤ
  | 0 => (0, 0)
  | n + 1 => zTick (zIter n)

/-- Interpretation of the integer shadow as a carried body on the z axis. -/
noncomputable def zEmbed (p : ℤ × ℤ) : CarryBody :=
  { pos := ⟨0, 0, (p.1 : ℝ) / 100⟩, vel := ⟨0, 0, (p.2 : ℝ) / 10⟩, mass := 1 }

/-- A ready state with the load already performed and no notes: the result
of the physics module arriving and one empty frame. -/
def stReady : SysState := runNotes .absent [.rapierLoaded, .frame inpBase]

/-- A frame pressing BUTTON_2 with a floor target and nothing hovered. -/
def inpCreate : NotesInput :=
  { inpBase with button2Click := true, target := some ⟨3, 0, 4⟩ }

/-- The initial physics state with a loaded furniture model attached to the
carried cube. -/
def stWithModel : PhysState :=
  { physInit 1 with
    furnitureModel := some { parent := .cube, worldPos := ⟨1, 2, 3⟩, castShadow := false } }

set_option maxRecDepth 100000

lemma serNote_get_id (n : Note) : (serNote n).get "id" = n.id := rfl

lemma serNote_get_content (n : Note) : (serNote n).get "content" = .str n.content := rfl

lemma loadPos_ser (n : Note) : loadPos (serNote n) = n.pos := rfl

lemma loadContent_ser (n : Note) : loadContent (serNote n) = n.content := by
  by_cases h : n.content = ""
  · simp [loadContent, serNote_get_content, JSVal.truthy, h]
  · simp [loadContent, serNote_get_content, JSVal.truthy, h, JSVal.toStr]

lemma create_notes (p : Vec3) (c : String) (o : Bool) (i : JSVal) (st : SysState) :
    (createNoteMarker p c o i st).notes = st.notes ++ [mkNoteDef p c i st.nextKey] := by
  cases o <;> rfl

lemma create_pickables (p : Vec3) (c : String) (o : Bool) (i : JSVal) (st : SysState) :
    (createNoteMarker p c o i st).notePickables
      = st.notePickables ++ [st.nextKey, st.nextKey, st.nextKey, st.nextKey] := by
  cases o <;> rfl

lemma create_hovered (p : Vec3) (c : String) (o : Bool) (i : JSVal) (st : SysState) :
    (createNoteMarker p c o i st).hoveredNote = st.hoveredNote := by
  cases o <;> rfl

lemma create_nextKey (p : Vec3) (c : String) (o : Bool) (i : JSVal) (st : SysState) :
    (createNoteMarker p c o i st).nextKey = st.nextKey + 1 := by
  cases o <;> rfl

lemma create_confirm (p : Vec3) (c : String) (o : Bool) (i : JSVal) (st : SysState) :
    (createNoteMarker p c o i st).activeConfirm = st.activeConfirm := by
  cases o <;> rfl

lemma create_input (p : Vec3) (c : String) (i : JSVal) (st : SysState) :
    (createNoteMarker p c true i st).activeNoteInput = some st.nextKey := rfl

lemma create_input_false (p : Vec3) (c : String) (i : JSVal) (st : SysState) :
    (createNoteMarker p c false i st).activeNoteInput = st.activeNoteInput := rfl

lemma mkNoteDef_proj (p : Vec3) (c : String) (i : JSVal) (k : ℕ) :
    (mkNoteDef p c i k).proj = (if i.truthy then i else .str (genId k), c, p) := rfl

lemma remove_notes (k : ℕ) (st : SysState) :
    (removeNote (some k) st).notes = st.notes.filter (fun n => n.key ≠ k) := rfl

lemma remove_pickables (k : ℕ) (st : SysState) :
    (removeNote (some k) st).notePickables = st.notePickables.filter (fun p => p ≠ k) := rfl

lemma remove_hovered (k : ℕ) (st : SysState) :
    (removeNote (some k) st).hoveredNote = none := rfl

lemma remove_none (st : SysState) : removeNote none st = st := rfl

lemma hoverStep_hovered (pi : Option ℕ) (st : SysState) :
    (hoverStep pi st).hoveredNote = pi.bind (fun i => st.notePickables.get? i) := by
  unfold hoverStep
  dsimp only
  split
  · next h => exact h
  · rfl

lemma hoverStep_keys (pi : Option ℕ) (st : SysState) :
    (hoverStep pi st).notes.map Note.key = st.notes.map Note.key := by
  unfold hoverStep
  dsimp only
  split
  · rfl
  · simp only [List.map_map]
    refine List.map_congr_left (fun n _ => ?_)
    simp only [Function.comp_apply, hoverMapNote]
    split <;> try split
    all_goals rfl

lemma hoverStep_proj (pi : Option ℕ) (st : SysState) :
    (hoverStep pi st).notes.map Note.proj = st.notes.map Note.proj := by
  unfold hoverStep
  dsimp only
  split
  · rfl
  · simp only [List.map_map]
    refine List.map_congr_left (fun n _ => ?_)
    simp only [Function.comp_apply, hoverMapNote]
    split <;> try split
    all_goals rfl

lemma hoverStep_pickables (pi : Option ℕ) (st : SysState) :
    (hoverStep pi st).notePickables = st.notePickables := by
  unfold hoverStep
  dsimp only
  split <;> rfl

lemma hoverStep_nextKey (pi : Option ℕ) (st : SysState) :
    (hoverStep pi st).nextKey = st.nextKey := by
  unfold hoverStep
  dsimp only
  split <;> rfl

lemma hoverStep_confirm (pi : Option ℕ) (st : SysState) :
    (hoverStep pi st).activeConfirm = st.activeConfirm := by
  unfold hoverStep
  dsimp only
  split <;> rfl

lemma hoverStep_input (pi : Option ℕ) (st : SysState) :
    (hoverStep pi st).activeNoteInput = st.activeNoteInput := by
  unfold hoverStep
  dsimp only
  split <;> rfl

lemma load_fold (items : List JSVal) (acc : SysState) :
    (items.foldl
        (fun s item =>
          createNoteMarker (loadPos item) (loadContent item) false (item.get "id") s)
        acc).notes
      = acc.notes ++ loadedNotes items acc.nextKey := by
  induction items generalizing acc with
  | nil => simp [loadedNotes]
  | cons item rest ih =>
    simp only [List.foldl_cons, loadedNotes]
    rw [ih, create_notes, create_nextKey]
    simp

lemma load_eq_fold (st : SysState) (items : List JSVal)
    (hst : st.store = .val (.arr items)) :
    loadNotesFromStorage st
      = items.foldl
          (fun s item =>
            createNoteMarker (loadPos item) (loadContent item) false (item.get "id") s)
          st := by
  unfold loadNotesFromStorage
  rw [hst]

lemma loadedNotes_ser_proj (ns : List Note) (k : ℕ)
    (h : ∀ n ∈ ns, n.id.truthy = true) :
    (loadedNotes (ns.map serNote) k).map Note.proj = ns.map Note.proj := by
  induction ns generalizing k with
  | nil => rfl
  | cons n rest ih =>
    have hn : n.id.truthy = true := h n (by simp)
    have ih' := ih (k + 1) (fun m hm => h m (by simp [hm]))
    simp only [List.map_cons, loadedNotes, Note.proj, mkNoteDef, loadPos_ser, loadContent_ser,
      serNote_get_id, hn, if_true, ih']

/-- C1.  Persisted round-trip: serializing any note collection whose ids
are truthy (as every id the code allocates is), clearing the in-memory
state, and reloading from the store reproduces the same number of notes
with identical id, content and position, in order. -/
theorem noteRoundTrip_correct (st : SysState)
    (h : ∀ n ∈ st.notes, n.id.truthy = true) :
    (loadNotesFromStorage (initSysState (saveNotesToStorage st).store)).notes.length
        = st.notes.length ∧
    (loadNotesFromStorage (initSysState (saveNotesToStorage st).store)).notes.map Note.proj
        = st.notes.map Note.proj := by
  have hst : (initSysState (saveNotesToStorage st).store).store
      = .val (.arr (st.notes.map serNote)) := rfl
  have hm : (loadNotesFromStorage (initSysState (saveNotesToStorage st).store)).notes.map
      Note.proj = st.notes.map Note.proj := by
    rw [load_eq_fold _ _ hst, load_fold]
    have h0 : (initSysState (saveNotesToStorage st).store).notes = [] := rfl
    have h1 : (initSysState (saveNotesToStorage st).store).nextKey = 0 := rfl
    rw [h0, h1, List.nil_append, loadedNotes_ser_proj _ _ h]
  refine ⟨?_, hm⟩
  have := congrArg List.length hm
  simpa using this

/-- Witness for C1: the three notes of the specified scenario, built
through the real creation and editing paths, round-trip exactly. -/
theorem noteRoundTrip_witness :
    ((loadNotesFromStorage
        (initSysState (saveNotesToStorage (runNotes .absent evsRoundTrip)).store)).notes.length
      = (runNotes .absent evsRoundTrip).notes.length ∧
     (loadNotesFromStorage
        (initSysState (saveNotesToStorage (runNotes .absent evsRoundTrip)).store)).notes.map
        Note.proj
      = (runNotes .absent evsRoundTrip).notes.map Note.proj) ∧
    (runNotes .absent evsRoundTrip).notes.map Note.proj
      = [(.str "note-0", "buy lamp", ⟨1, 0, 1⟩),
         (.str "note-1", "", ⟨0, 0, 0⟩),
         (.str "note-2", "move rug", ⟨-2, 0, 3⟩)] := by
  refine ⟨noteRoundTrip_correct _ ?_, ?_⟩
  · intro n hn
    fin_cases hn <;> rfl
  · rfl

lemma loadedNotes_length (items : List JSVal) (k : ℕ) :
    (loadedNotes items k).length = items.length := by
  induction items generalizing k with
  | nil => rfl
  | cons item rest ih => simp [loadedNotes, ih]

lemma loadedNotes_get (items : List JSVal) (k i : ℕ) (hi : i < items.length) :
    (loadedNotes items k).get? i
      = some (mkNoteDef (loadPos (items.get ⟨i, hi⟩)) (loadContent (items.get ⟨i, hi⟩))
          ((items.get ⟨i, hi⟩).get "id") (k + i)) := by
  induction items generalizing k i with
  | nil => simp at hi
  | cons item rest ih =>
    cases i with
    | zero => rfl
    | succ j =>
      have hj : j < rest.length := by simpa using hi
      have := ih (k + 1) j hj
      simpa [loadedNotes, Nat.add_assoc, Nat.add_comm 1 j] using this

/-- C10.  Restoring persisted notes: every element of the stored array
produces exactly one note, in order; its position components are the
ToNumber coercions of the stored components with NaN (missing or
non-numeric) falling back to 0, its content is the stored content coerced
to a string with falsy content becoming empty, and its id is the stored id
when that is truthy and a freshly generated id otherwise (mkNoteDef,
loadPos and loadContent spell out exactly these rules). -/
theorem loadCoercion_correct (items : List JSVal) (st : SysState)
    (hst : st.store = .val (.arr items)) :
    (loadNotesFromStorage st).notes.length = st.notes.length + items.length ∧
    (∀ i (hi : i < items.length),
      (loadNotesFromStorage st).notes.get? (st.notes.length + i)
        = some (mkNoteDef (loadPos (items.get ⟨i, hi⟩)) (loadContent (items.get ⟨i, hi⟩))
            ((items.get ⟨i, hi⟩).get "id") (st.nextKey + i))) ∧
    (∀ v : JSVal, jsToNum v = none → coerceComp v = 0) ∧
    (∀ item : JSVal, (item.get "content").truthy = false → loadContent item = "") := by
  rw [load_eq_fold st items hst]
  refine ⟨?_, ?_, ?_, ?_⟩
  · rw [load_fold]
    simp [loadedNotes_length]
  · intro i hi
    rw [load_fold]
    rw [List.get?_append_right (by omega)]
    simpa using loadedNotes_get items st.nextKey i hi
  · intro v hv
    simp [coerceComp, hv]
  · intro item hitem
    simp [loadContent, hitem]

/-- Witness for C10: a stored array with a non-object element, an object
with all fields missing, and an object with non-numeric, numeric-string and
null position components, numeric content and a falsy id loads into three
notes with the coerced values. -/
theorem loadCoercion_witness :
    (loadNotesFromStorage (initSysState (.val (.arr itemsCoerce)))).notes.length = 3 ∧
    (loadNotesFromStorage (initSysState (.val (.arr itemsCoerce)))).notes.map Note.proj
      = [(.str "note-0", "", ⟨0, 0, 0⟩),
         (.str "note-1", "", ⟨0, 0, 0⟩),
         (.str "note-2", "3", ⟨0, 25, 0⟩)] := by
  refine ⟨?_, by rfl⟩
  simpa using (loadCoercion_correct itemsCoerce (initSysState (.val (.arr itemsCoerce))) rfl).1

lemma remove_nextKey (k : ℕ) (st : SysState) :
    (removeNote (some k) st).nextKey = st.nextKey := rfl

/-- C3 (amended).  remove with a null note is a complete no-op; remove with
a note that is not (or no longer) in the collection raises no error and
leaves the note and pickables collections unchanged, rewriting the store
with the serialization of that unchanged collection, but it unconditionally
clears the hover slot. -/
theorem removeNoop_amended (st : SysState) (k : ℕ)
    (hk : k ∉ st.notes.map Note.key)
    (hp : ∀ p ∈ st.notePickables, p ∈ st.notes.map Note.key) :
    removeNote none st = st ∧
    (removeNote (some k) st).notes = st.notes ∧
    (removeNote (some k) st).notePickables = st.notePickables ∧
    (removeNote (some k) st).hoveredNote = none ∧
    (removeNote (some k) st).store = .val (.arr (st.notes.map serNote)) ∧
    (removeNote (some k) st).activeConfirm = st.activeConfirm ∧
    (removeNote (some k) st).activeNoteInput = st.activeNoteInput := by
  have hnotes : st.notes.filter (fun n => n.key ≠ k) = st.notes := by
    refine List.filter_eq_self.mpr (fun n hn => ?_)
    simp only [ne_eq, decide_eq_true_eq]
    intro heq
    exact hk (heq ▸ List.mem_map_of_mem Note.key hn)
  have hpick : st.notePickables.filter (fun p => p ≠ k) = st.notePickables := by
    refine List.filter_eq_self.mpr (fun p hmem => ?_)
    simp only [ne_eq, decide_eq_true_eq]
    intro heq
    exact hk (heq ▸ hp p hmem)
  refine ⟨rfl, ?_, ?_, rfl, ?_, rfl, rfl⟩
  · rw [remove_notes, hnotes]
  · rw [remove_pickables, hpick]
  · show StoreVal.val (.arr ((st.notes.filter (fun n => n.key ≠ k)).map serNote))
      = .val (.arr (st.notes.map serNote))
    rw [hnotes]

/-- Counterexample for C3: in a reachable state hovering note 0 while the
still-open editor captures the already-removed note 1, calling remove with
that stale note leaves the collections and store unchanged but resets the
hover slot from note 0 to empty, so the hover slot is not left unchanged as
claimed. -/
theorem removeForeign_counterexample :
    (runNotes .absent evsStaleRef).hoveredNote = some 0 ∧
    (runNotes .absent evsStaleRef).activeNoteInput = some 1 ∧
    (runNotes .absent evsStaleRef).notes.map Note.key = [0] ∧
    (removeNote (some 1) (runNotes .absent evsStaleRef)).hoveredNote = none ∧
    (removeNote (some 1) (runNotes .absent evsStaleRef)).notes.map Note.key = [0] ∧
    (removeNote (some 1) (runNotes .absent evsStaleRef)).notePickables
      = (runNotes .absent evsStaleRef).notePickables :=
  ⟨rfl, rfl, rfl, rfl, rfl, rfl⟩

/-- Witness for C3: removing a key foreign to a concrete reachable
collection leaves the collections unchanged and clears the hover slot. -/
theorem removeNoop_witness :
    (removeNote (some 7) (runNotes .absent evsDialog)).notes
        = (runNotes .absent evsDialog).notes ∧
    (removeNote (some 7) (runNotes .absent evsDialog)).notePickables
        = (runNotes .absent evsDialog).notePickables ∧
    (removeNote (some 7) (runNotes .absent evsDialog)).hoveredNote = none := by
  have h := removeNoop_amended (runNotes .absent evsDialog) 7
    (by decide) (by decide)
  exact ⟨h.2.1, h.2.2.1, h.2.2.2.1⟩

lemma create_keys (p : Vec3) (c : String) (o : Bool) (i : JSVal) (st : SysState) :
    noteKeys (createNoteMarker p c o i st) = noteKeys st ++ [st.nextKey] := by
  simp [noteKeys, create_notes, mkNoteDef]

lemma SysInv_create (p : Vec3) (c : String) (o : Bool) (i : JSVal) (st : SysState)
    (h : SysInv st) : SysInv (createNoteMarker p c o i st) := by
  obtain ⟨h1, h2, h3, h4, h5⟩ := h
  refine ⟨?_, ?_, ?_, ?_, ?_⟩
  · intro k hk
    rw [create_hovered] at hk
    rw [create_keys]
    exact List.mem_append_left _ (h1 k hk)
  · intro q hq
    rw [create_pickables] at hq
    rw [create_keys]
    rcases List.mem_append.mp hq with hq | hq
    · exact List.mem_append_left _ (h2 q hq)
    · refine List.mem_append_right _ ?_
      simp only [List.mem_cons, List.mem_singleton] at hq
      rcases hq with rfl | rfl | rfl | h' 
      · simp
      · simp
      · simp
      · simp at h'
        simp [h']
  · intro n hn
    rw [create_notes] at hn
    rw [create_nextKey]
    rcases List.mem_append.mp hn with hn | hn
    · exact Nat.lt_succ_of_lt (h3 n hn)
    · simp only [List.mem_singleton] at hn
      subst hn
      simp [mkNoteDef]
  · rw [create_keys]
    rw [List.nodup_append]
    refine ⟨h4, List.nodup_singleton _, ?_⟩
    intro a ha hb
    simp only [List.mem_singleton] at hb
    subst hb
    rcases List.mem_map.mp ha with ⟨n, hn, hkey⟩
    exact absurd (hkey ▸ h3 n hn) (lt_irrefl _)
  · intro a ha b hb hva hvb
    rw [create_notes] at ha hb
    have hnotnew : ∀ x, x ∈ [mkNoteDef p c i st.nextKey] → x.rootVisible = true → False := by
      intro x hx hv
      simp only [List.mem_singleton] at hx
      subst hx
      simp [mkNoteDef] at hv
    rcases List.mem_append.mp ha with ha' | ha'
    · rcases List.mem_append.mp hb with hb' | hb'
      · exact h5 a ha' b hb' hva hvb
      · exact absurd hvb (fun hv => hnotnew b hb' hv)
    · exact absurd hva (fun hv => hnotnew a ha' hv)

lemma SysInv_remove (k : ℕ) (st : SysState) (h : SysInv st) :
    SysInv (removeNote (some k) st) := by
  obtain ⟨h1, h2, h3, h4, h5⟩ := h
  have hsub : (st.notes.filter (fun n => n.key ≠ k)).Sublist st.notes :=
    List.filter_sublist _
  refine ⟨?_, ?_, ?_, ?_, ?_⟩
  · intro k' hk'
    rw [remove_hovered] at hk'
    cases hk'
  · intro p hp
    rw [remove_pickables] at hp
    have hmem := List.mem_of_mem_filter hp
    have hne : p ≠ k := by
      have := List.of_mem_filter hp
      simpa using this
    have hpk := h2 p hmem
    rcases List.mem_map.mp hpk with ⟨n, hn, hkey⟩
    refine List.mem_map.mpr ⟨n, ?_, hkey⟩
    refine List.mem_filter.mpr ⟨hn, ?_⟩
    simp only [ne_eq, decide_eq_true_eq]
    intro heq
    exact hne (hkey ▸ heq ▸ rfl)
  · intro n hn
    rw [remove_notes] at hn
    rw [remove_nextKey]
    exact h3 n (hsub.mem hn)
  · show ((st.notes.filter (fun n => n.key ≠ k)).map Note.key).Nodup
    exact (hsub.map Note.key).nodup h4
  · intro a ha b hb hva hvb
    rw [remove_notes] at ha hb
    exact h5 a (hsub.mem ha) b (hsub.mem hb) hva hvb

lemma SysInv_removeOpt (o : Option ℕ) (st : SysState) (h : SysInv st) :
    SysInv (removeNote o st) := by
  cases o with
  | none => exact h
  | some k => exact SysInv_remove k st h

lemma hoverMapNote_key (prev next : Option ℕ) (n : Note) :
    (hoverMapNote prev next n).key = n.key := by
  unfold hoverMapNote
  split <;> try split
  all_goals rfl

lemma hoverMapNote_visible (prev next : Option ℕ) (n : Note)
    (h : (hoverMapNote prev next n).rootVisible = true) : next = some n.key := by
  unfold hoverMapNote at h
  split at h
  · next hc => exact hc
  · split at h <;> cases h

lemma hoverStep_label (pi : Option ℕ) (st : SysState)
    (hne : ¬ st.hoveredNote = pi.bind (fun i => st.notePickables.get? i)) :
    ∀ n ∈ (hoverStep pi st).notes, n.rootVisible = true →
      (hoverStep pi st).hoveredNote = some n.key := by
  intro n hn hv
  rw [hoverStep_hovered]
  have hnotes : (hoverStep pi st).notes
      = st.notes.map (hoverMapNote st.hoveredNote (pi.bind fun i => st.notePickables.get? i)) := by
    unfold hoverStep
    dsimp only
    rw [if_neg hne]
  rw [hnotes] at hn
  rcases List.mem_map.mp hn with ⟨m, hm, rfl⟩
  rw [hoverMapNote_key]
  exact hoverMapNote_visible _ _ _ hv

lemma SysInv_hover (pi : Option ℕ) (st : SysState) (h : SysInv st) :
    SysInv (hoverStep pi st) := by
  obtain ⟨h1, h2, h3, h4, h5⟩ := h
  by_cases hc : st.hoveredNote = pi.bind (fun i => st.notePickables.get? i)
  · have : hoverStep pi st = st := by
      unfold hoverStep
      dsimp only
      rw [if_pos hc]
    rw [this]
    exact ⟨h1, h2, h3, h4, h5⟩
  · refine ⟨?_, ?_, ?_, ?_, ?_⟩
    · intro k hk
      rw [hoverStep_hovered] at hk
      show k ∈ (hoverStep pi st).notes.map Note.key
      rw [hoverStep_keys]
      cases hpi : pi with
      | none => rw [hpi] at hk; cases hk
      | some i =>
        rw [hpi] at hk
        simp only [Option.some_bind] at hk
        have hmem : k ∈ st.notePickables := by
          cases hg : st.notePickables.get? i with
          | none => rw [hg] at hk; cases hk
          | some q =>
            rw [hg] at hk
            cases hk
            exact List.get?_mem hg
        exact h2 k hmem
    · intro p hp
      rw [hoverStep_pickables] at hp
      show p ∈ (hoverStep pi st).notes.map Note.key
      rw [hoverStep_keys]
      exact h2 p hp
    · intro n hn
      rw [hoverStep_nextKey]
      have : n.key ∈ (hoverStep pi st).notes.map Note.key := List.mem_map_of_mem _ hn
      rw [hoverStep_keys] at this
      rcases List.mem_map.mp this with ⟨m, hm, hkey⟩
      exact hkey ▸ h3 m hm
    · show ((hoverStep pi st).notes.map Note.key).Nodup
      rw [hoverStep_keys]
      exact h4
    · intro a ha b hb hva hvb
      have hla := hoverStep_label pi st hc a ha hva
      have hlb := hoverStep_label pi st hc b hb hvb
      rw [hla] at hlb
      exact Option.some_inj.mp hlb

lemma SysInv_foldCreate (items : List JSVal) (st : SysState) (h : SysInv st) :
    SysInv (items.foldl
      (fun s item =>
        createNoteMarker (loadPos item) (loadContent item) false (item.get "id") s)
      st) := by
  induction items generalizing st with
  | nil => exact h
  | cons item rest ih =>
    simp only [List.foldl_cons]
    exact ih _ (SysInv_create _ _ _ _ _ h)

lemma SysInv_loadStore (st : SysState) (h : SysInv st) :
    SysInv (loadNotesFromStorage st) := by
  unfold loadNotesFromStorage
  cases st.store with
  | absent => exact h
  | malformed => exact h
  | val v =>
    cases v with
    | arr items => exact SysInv_foldCreate items st h
    | undefined => exact h
    | null => exact h
    | bool b => exact h
    | num q => exact h
    | str s => exact h
    | obj f => exact h

lemma SysInv_frameLoad (st : SysState) (h : SysInv st) : SysInv (frameLoad st) := by
  unfold frameLoad
  split
  · exact h
  · exact SysInv_loadStore st h

lemma SysInv_frameButtons (inp : NotesInput) (st : SysState) (h : SysInv st) :
    SysInv (frameButtons inp st) := by
  unfold frameButtons
  split
  · cases hh : st.hoveredNote with
    | some k => exact h
    | none =>
      dsimp only
      split
      · exact SysInv_create _ _ _ _ _ h
      · exact h
  · exact h

lemma SysInv_frameEdit (inp : NotesInput) (st : SysState) (h : SysInv st) :
    SysInv (frameEdit inp st) := by
  unfold frameEdit
  cases st.hoveredNote with
  | none => exact h
  | some k =>
    dsimp only
    split
    · exact h
    · exact h

lemma SysInv_frameSqueeze (inp : NotesInput) (st : SysState) (h : SysInv st) :
    SysInv (frameSqueeze inp st) := by
  unfold frameSqueeze
  cases st.hoveredNote with
  | none => exact h
  | some k =>
    dsimp only
    split
    · exact SysInv_remove k st h
    · exact h

lemma SysInv_confirmStep (inp : NotesInput) (st : SysState) (h : SysInv st) :
    SysInv (confirmStep inp st) := by
  unfold confirmStep
  cases st.activeConfirm with
  | none => exact h
  | some k =>
    dsimp only
    split
    · exact h
    · split
      · split
        · exact SysInv_remove k st h
        · split
          · exact h
          · exact h
      · exact h

lemma SysInv_notesFrame (inp : NotesInput) (st : SysState) (h : SysInv st) :
    SysInv (notesFrame inp st) := by
  unfold notesFrame
  split
  · exact h
  · dsimp only
    split
    · exact SysInv_frameLoad st h
    · exact SysInv_confirmStep _ _
        (SysInv_frameSqueeze _ _
          (SysInv_frameEdit _ _
            (SysInv_frameButtons _ _
              (SysInv_hover _ _ (SysInv_frameLoad st h)))))

lemma editorSave_keys (t : String) (st : SysState) :
    noteKeys (editorSaveStep t st) = noteKeys st := by
  unfold editorSaveStep
  cases st.activeNoteInput with
  | none => rfl
  | some k =>
    dsimp only
    show (st.notes.map _).map Note.key = _
    simp only [List.map_map, noteKeys]
    refine List.map_congr_left (fun n _ => ?_)
    simp only [Function.comp_apply]
    split <;> rfl

lemma SysInv_editorSave (t : String) (st : SysState) (h : SysInv st) :
    SysInv (editorSaveStep t st) := by
  obtain ⟨h1, h2, h3, h4, h5⟩ := h
  unfold editorSaveStep
  cases st.activeNoteInput with
  | none => exact ⟨h1, h2, h3, h4, h5⟩
  | some k =>
    dsimp only
    refine ⟨?_, ?_, ?_, ?_, ?_⟩
    · intro k' hk'
      rcases List.mem_map.mp (h1 k' hk') with ⟨n, hn, hkey⟩
      refine List.mem_map.mpr ⟨_, List.mem_map_of_mem _ hn, ?_⟩
      show (if n.key = k then { n with content := strTrim t } else n).key = k'
      split <;> simpa using hkey
    · intro p hp
      rcases List.mem_map.mp (h2 p hp) with ⟨n, hn, hkey⟩
      refine List.mem_map.mpr ⟨_, List.mem_map_of_mem _ hn, ?_⟩
      show (if n.key = k then { n with content := strTrim t } else n).key = p
      split <;> simpa using hkey
    · intro n hn
      rcases List.mem_map.mp hn with ⟨m, hm, rfl⟩
      show (if m.key = k then { m with content := strTrim t } else m).key < st.nextKey
      split <;> simpa using h3 m hm
    · show ((st.notes.map _).map Note.key).Nodup
      simp only [List.map_map]
      have : (Note.key ∘ fun n => if n.key = k then { n with content := strTrim t } else n)
          = Note.key := by
        funext n
        simp only [Function.comp_apply]
        split <;> rfl
      rw [this]
      exact h4
    · intro a ha b hb hva hvb
      rcases List.mem_map.mp ha with ⟨a0, ha0, rfl⟩
      rcases List.mem_map.mp hb with ⟨b0, hb0, rfl⟩
      have hva0 : a0.rootVisible = true := by
        revert hva
        show (if a0.key = k then { a0 with content := strTrim t } else a0).rootVisible = true → _
        split <;> exact id
      have hvb0 : b0.rootVisible = true := by
        revert hvb
        show (if b0.key = k then { b0 with content := strTrim t } else b0).rootVisible = true → _
        split <;> exact id
      have := h5 a0 ha0 b0 hb0 hva0 hvb0
      show (if a0.key = k then _ else a0).key = (if b0.key = k then _ else b0).key
      split <;> split <;> simpa using this

lemma SysInv_step (e : NoteEvent) (st : SysState) (h : SysInv st) :
    SysInv (noteStep e st) := by
  cases e with
  | rapierLoaded => exact h
  | frame inp => exact SysInv_notesFrame inp st h
  | editorSave t => exact SysInv_editorSave t st h
  | editorCancel =>
    show SysInv (editorCancelStep st)
    unfold editorCancelStep
    cases st.activeNoteInput with
    | none => exact h
    | some k => exact h
  | editorDelete =>
    show SysInv (editorDeleteStep st)
    unfold editorDeleteStep
    cases st.activeNoteInput with
    | none => exact h
    | some k => exact SysInv_remove k st h

lemma SysInv_init (store : StoreVal) : SysInv (initSysState store) := by
  refine ⟨?_, ?_, ?_, ?_, ?_⟩ <;> intros <;> simp_all [initSysState, noteKeys]

lemma SysInv_run (store : StoreVal) (evs : List NoteEvent) :
    SysInv (runNotes store evs) := by
  unfold runNotes
  have : ∀ (l : List NoteEvent) (st : SysState), SysInv st →
      SysInv (l.foldl (fun s e => noteStep e s) st) := by
    intro l
    induction l with
    | nil => intro st h; exact h
    | cons e rest ih =>
      intro st h
      exact ih _ (SysInv_step e st h)
  exact this evs _ (SysInv_init store)

/-- C2 (amended).  In every reachable state the hover slot is either empty
or holds a note that is currently a member of the note collection, at most
one note has a visible label, and a remove of any note clears the hover
slot within the same operation (in particular removing the hovered note).
Label visibility, however, is not strictly tied to hover: it can survive
the hover slot being cleared by the removal of a different note. -/
theorem hoverInvariant_amended (store : StoreVal) (evs : List NoteEvent) :
    (∀ k, (runNotes store evs).hoveredNote = some k →
        k ∈ (runNotes store evs).notes.map Note.key) ∧
    (∀ a ∈ (runNotes store evs).notes, ∀ b ∈ (runNotes store evs).notes,
        a.rootVisible = true → b.rootVisible = true → a = b) ∧
    (∀ k, (removeNote (some k) (runNotes store evs)).hoveredNote = none) := by
  obtain ⟨h1, h2, h3, h4, h5⟩ := SysInv_run store evs
  refine ⟨h1, ?_, fun k => rfl⟩
  intro a ha b hb hva hvb
  exact List.inj_on_of_nodup_map h4 ha hb (h5 a ha b hb hva hvb)

/-- Witness for C2: in the concrete reachable state with the delete dialog
open for note 0, the hover slot holds note 0 and the theorem yields its
membership in the collection. -/
theorem hoverInvariant_witness :
    (0 : ℕ) ∈ (runNotes .absent evsDialog).notes.map Note.key :=
  (hoverInvariant_amended .absent evsDialog).1 0 rfl

/-- Counterexample for C2: a reachable state (create two notes, hover the
first, let the still-open editor delete the second) whose hover slot is
empty while note 0's label is still visible, refuting the claim that label
visibility is strictly tied to hover. -/
theorem hoverLabel_counterexample :
    (runNotes .absent evsStaleLabel).hoveredNote = none ∧
    (runNotes .absent evsStaleLabel).notes.map (fun n => (n.key, n.rootVisible))
      = [(0, true)] :=
  ⟨rfl, rfl⟩

lemma frameLoad_loaded (st : SysState) (h : st.notesLoaded = true) : frameLoad st = st := by
  unfold frameLoad
  rw [if_pos h]

lemma notesFrame_eq (inp : NotesInput) (st : SysState)
    (hr : st.ready = true) (hc : inp.controllerPresent = true) :
    notesFrame inp st
      = confirmStep inp
          (frameSqueeze inp
            (frameEdit inp (frameButtons inp (hoverStep inp.pickIdx (frameLoad st))))) := by
  unfold notesFrame
  rw [hr, hc]
  rfl

lemma frameButtons_hovered (inp : NotesInput) (st : SysState) (k : ℕ)
    (hgp : inp.gamepadPresent = true) (hb2 : inp.button2Click = true)
    (hk : st.hoveredNote = some k) :
    frameButtons inp st = openDeleteConfirm k st := by
  unfold frameButtons
  rw [hgp, hb2, hk]
  rfl

lemma frameButtons_create (inp : NotesInput) (st : SysState)
    (hgp : inp.gamepadPresent = true) (hb2 : inp.button2Click = true)
    (hk : st.hoveredNote = none) (hcf : st.activeConfirm = none) :
    frameButtons inp st = createNoteMarker (inp.target.getD inp.cubePos) "" true .undefined st := by
  unfold frameButtons
  rw [hgp, hb2, hk, hcf]
  rfl

lemma frameButtons_dialogActive (inp : NotesInput) (st : SysState) (c : ℕ)
    (hgp : inp.gamepadPresent = true) (hb2 : inp.button2Click = true)
    (hk : st.hoveredNote = none) (hcf : st.activeConfirm = some c) :
    frameButtons inp st = st := by
  unfold frameButtons
  rw [hgp, hb2, hk, hcf]
  simp

lemma frameEdit_noButton (inp : NotesInput) (st : SysState)
    (hb1 : inp.button1Click = false) : frameEdit inp st = st := by
  unfold frameEdit
  cases hk : st.hoveredNote with
  | none => rfl
  | some k =>
    rw [hb1]
    simp

lemma frameSqueeze_noButton (inp : NotesInput) (st : SysState)
    (hsq : inp.squeezeClick = false) : frameSqueeze inp st = st := by
  unfold frameSqueeze
  cases hk : st.hoveredNote with
  | none => rfl
  | some k =>
    rw [hsq]
    simp

lemma confirmStep_noButton (inp : NotesInput) (st : SysState)
    (hb1 : inp.button1Click = false) : confirmStep inp st = st := by
  unfold confirmStep
  cases hk : st.activeConfirm with
  | none => rfl
  | some k =>
    rw [hb1]
    simp

/-- C8.  A primary-action (BUTTON_2) press yields exactly one of three
mutually exclusive outcomes: with a hovered note, the delete dialog opens
for it and no note is created; with no hover and no active dialog, a note
is created at the target point (or at the carried object's position without
a target) and its editor opens; with no hover and an active dialog, the
note collection, the dialog and the editor are all left unchanged. -/
theorem primaryButton_correct (inp : NotesInput) (st : SysState)
    (hr : st.ready = true) (hl : st.notesLoaded = true)
    (hcp : inp.controllerPresent = true) (hgp : inp.gamepadPresent = true)
    (hb2 : inp.button2Click = true) (hb1 : inp.button1Click = false)
    (hsq : inp.squeezeClick = false) :
    (∀ k, resolvedHover inp st = some k →
        (notesFrame inp st).activeConfirm = some k ∧
        (notesFrame inp st).notes.map Note.proj = st.notes.map Note.proj ∧
        (notesFrame inp st).activeNoteInput = st.activeNoteInput) ∧
    (resolvedHover inp st = none → st.activeConfirm = none →
        (notesFrame inp st).notes.map Note.proj
          = st.notes.map Note.proj
              ++ [(.str (genId st.nextKey), "", inp.target.getD inp.cubePos)] ∧
        (notesFrame inp st).activeNoteInput = some st.nextKey ∧
        (notesFrame inp st).activeConfirm = none) ∧
    (∀ c, resolvedHover inp st = none → st.activeConfirm = some c →
        (notesFrame inp st).notes.map Note.proj = st.notes.map Note.proj ∧
        (notesFrame inp st).activeConfirm = some c ∧
        (notesFrame inp st).activeNoteInput = st.activeNoteInput) := by
  have hframe := notesFrame_eq inp st hr hcp
  rw [frameLoad_loaded st hl] at hframe
  have hH : (hoverStep inp.pickIdx st).hoveredNote = resolvedHover inp st :=
    hoverStep_hovered inp.pickIdx st
  refine ⟨?_, ?_, ?_⟩
  · intro k hk
    have hB := frameButtons_hovered inp (hoverStep inp.pickIdx st) k hgp hb2 (hH.trans hk)
    rw [hframe, hB, frameEdit_noButton _ _ hb1, frameSqueeze_noButton _ _ hsq,
      confirmStep_noButton _ _ hb1]
    exact ⟨rfl, hoverStep_proj _ _, hoverStep_input _ _⟩
  · intro hk hcf
    have hB := frameButtons_create inp (hoverStep inp.pickIdx st) hgp hb2 (hH.trans hk)
      (by rw [hoverStep_confirm]; exact hcf)
    rw [hframe, hB, frameEdit_noButton _ _ hb1, frameSqueeze_noButton _ _ hsq,
      confirmStep_noButton _ _ hb1]
    refine ⟨?_, ?_, ?_⟩
    · rw [create_notes, List.map_append, hoverStep_proj, hoverStep_nextKey]
      rfl
    · rw [create_input, hoverStep_nextKey]
    · rw [create_confirm, hoverStep_confirm]
      exact hcf
  · intro c hk hcf
    have hB := frameButtons_dialogActive inp (hoverStep inp.pickIdx st) c hgp hb2 (hH.trans hk)
      (by rw [hoverStep_confirm]; exact hcf)
    rw [hframe, hB, frameEdit_noButton _ _ hb1, frameSqueeze_noButton _ _ hsq,
      confirmStep_noButton _ _ hb1]
    refine ⟨hoverStep_proj _ _, ?_, hoverStep_input _ _⟩
    rw [hoverStep_confirm]
    exact hcf

/-- Witness for C8: on the concrete ready empty state, a BUTTON_2 press
with a target and nothing hovered creates exactly one note there and opens
its editor, with no dialog active. -/
theorem primaryButton_witness :
    (notesFrame inpCreate stReady).notes.map Note.proj
        = [(.str "note-0", "", ⟨3, 0, 4⟩)] ∧
    (notesFrame inpCreate stReady).activeNoteInput = some 0 ∧
    (notesFrame inpCreate stReady).activeConfirm = none := by
  have h := (primaryButton_correct inpCreate stReady rfl rfl rfl rfl rfl rfl rfl).2.1 rfl rfl
  simpa using h

/-- C9 (amended).  While the delete dialog is active its per-frame tick
re-resolves the ray against only the confirm and cancel targets (its result
depends on nothing else of the frame input) and reacts only to BUTTON_1 —
the secondary action button, the one that opens the note editor, not the
primary creation button: a press over confirm removes the captured note and
tears the dialog down, a press over cancel (and not confirm) tears the
dialog down with the state otherwise untouched, and a press over neither,
or no press, changes nothing. -/
theorem confirmDialog_amended (inp : NotesInput) (st : SysState) (k : ℕ)
    (hcf : st.activeConfirm = some k)
    (hcp : inp.controllerPresent = true) (hgp : inp.gamepadPresent = true) :
    (inp.button1Click = true → inp.overConfirm = true →
        (confirmStep inp st).notes = st.notes.filter (fun n => n.key ≠ k) ∧
        (confirmStep inp st).hoveredNote = none ∧
        (confirmStep inp st).activeConfirm = none) ∧
    (inp.button1Click = true → inp.overConfirm = false → inp.overCancel = true →
        confirmStep inp st = { st with activeConfirm := none }) ∧
    (inp.button1Click = false → confirmStep inp st = st) ∧
    (inp.overConfirm = false → inp.overCancel = false → confirmStep inp st = st) ∧
    (∀ inp' : NotesInput,
        inp'.controllerPresent = inp.controllerPresent →
        inp'.gamepadPresent = inp.gamepadPresent →
        inp'.button1Click = inp.button1Click →
        inp'.overConfirm = inp.overConfirm →
        inp'.overCancel = inp.overCancel →
        confirmStep inp' st = confirmStep inp st) := by
  refine ⟨?_, ?_, ?_, ?_, ?_⟩
  · intro hb1 hoc
    unfold confirmStep
    rw [hcf, hcp, hgp, hb1, hoc]
    exact ⟨rfl, rfl, rfl⟩
  · intro hb1 hoc hocc
    unfold confirmStep
    rw [hcf, hcp, hgp, hb1, hoc, hocc]
    rfl
  · intro hb1
    unfold confirmStep
    rw [hcf, hcp, hgp, hb1]
    rfl
  · intro hoc hocc
    cases hb1 : inp.button1Click with
    | false =>
      unfold confirmStep
      rw [hcf, hcp, hgp, hb1]
      rfl
    | true =>
      unfold confirmStep
      rw [hcf, hcp, hgp, hb1, hoc, hocc]
      rfl
  · intro inp' h1 h2 h3 h4 h5
    unfold confirmStep
    rw [hcf, h1, h2, h3, h4, h5]

/-- Counterexample for C9: with the dialog open for note 0 and the pointer
ray over its confirm target, pressing the primary action button (BUTTON_2,
the button C8 and the spec call primary) removes nothing and leaves the
dialog standing: the dialog reacts to BUTTON_1, not to the primary
button. -/
theorem confirmPrimary_counterexample :
    stDialog.activeConfirm = some 0 ∧
    stDialog.notes.map Note.key = [0] ∧
    (notesFrame inpPrimaryOverConfirm stDialog).notes.map Note.key = [0] ∧
    (notesFrame inpPrimaryOverConfirm stDialog).activeConfirm = some 0 :=
  ⟨rfl, rfl, rfl, rfl⟩

/-- Witness for C9: a BUTTON_1 press over confirm removes the captured note
and tears the dialog down in the concrete dialog state. -/
theorem confirmDialog_witness :
    (confirmStep inpSecondaryOverConfirm stDialog).notes
        = stDialog.notes.filter (fun n => n.key ≠ 0) ∧
    (confirmStep inpSecondaryOverConfirm stDialog).activeConfirm = none := by
  have h := (confirmDialog_amended inpSecondaryOverConfirm stDialog 0 rfl rfl rfl).1 rfl rfl
  exact ⟨h.1, h.2.2⟩

lemma PhysInv_init (m : ℚ) : PhysInv (physInit m) := by
  refine ⟨?_, ?_, ⟨_, rfl, rfl⟩⟩
  · intro c hc
    simp only [physInit, List.mem_singleton] at hc
    subst hc
    show (0 : ℕ) < 1
    exact Nat.zero_lt_one
  · show ([(0 : ℕ)]).Nodup
    exact List.nodup_singleton 0

lemma PhysInv_append_nonfloor (st : PhysState) (h : PhysInv st) (c : Collider)
    (hc : ¬ c.kind = ColliderKind.floor) :
    PhysInv { st with
      colliders := st.colliders ++ [(st.nextColliderId, c)],
      nextColliderId := st.nextColliderId + 1 } := by
  obtain ⟨h1, h2, h3⟩ := h
  refine ⟨?_, ?_, ?_⟩
  · intro x hx
    rcases List.mem_append.mp hx with hx | hx
    · exact Nat.lt_succ_of_lt (h1 x hx)
    · simp only [List.mem_singleton] at hx
      subst hx
      simp
  · show ((st.colliders ++ [(st.nextColliderId, c)]).map Prod.fst).Nodup
    rw [List.map_append, List.nodup_append]
    refine ⟨h2, List.nodup_singleton _, ?_⟩
    intro a ha hb
    simp only [List.map_cons, List.map_nil, List.mem_singleton] at hb
    subst hb
    rcases List.mem_map.mp ha with ⟨x, hx, hfst⟩
    exact absurd (hfst ▸ h1 x hx) (lt_irrefl _)
  · obtain ⟨d, hcf, hty⟩ := h3
    refine ⟨d, ?_, hty⟩
    show List.filter _ (st.colliders ++ [(st.nextColliderId, c)]) = _
    rw [List.filter_append]
    have hnil : List.filter (fun x => decide (x.2.kind = ColliderKind.floor))
        [(st.nextColliderId, c)] = [] := by
      simp [hc]
    rw [hnil, List.append_nil]
    exact hcf

lemma PhysInv_finalize (st : PhysState) (h : PhysInv st) :
    PhysInv (finalizeFurniturePosition st) := by
  unfold finalizeFurniturePosition
  cases hm : st.furnitureModel with
  | none => exact h
  | some m =>
    dsimp only
    exact PhysInv_append_nonfloor st h _ (by simp)

lemma floorColliders_strip (st : PhysState) (h : PhysInv st) :
    (st.colliders.filter (fun c => c.1 ≠ st.floorColliderId)).filter
      (fun c => c.2.kind = ColliderKind.floor) = [] := by
  obtain ⟨h1, h2, ⟨c, hcf, hty⟩⟩ := h
  refine List.filter_eq_nil_iff.mpr ?_
  intro a ha
  have hmem : a ∈ st.colliders := (List.filter_sublist _).mem ha
  have hne : ¬ a.1 = st.floorColliderId := by
    have := List.of_mem_filter ha
    simpa using this
  intro hkind
  have hfl : a ∈ floorColliders st := by
    refine List.mem_filter.mpr ⟨hmem, ?_⟩
    simpa using hkind
  rw [hcf] at hfl
  simp only [List.mem_singleton] at hfl
  exact hne (by rw [hfl])

lemma PhysInv_plane (p : PlaneInfo) (st : PhysState) (h : PhysInv st) :
    PhysInv (onPlaneAdded p st) := by
  unfold onPlaneAdded
  by_cases hv : p.orientation = PlaneOrientation.vertical
  · rw [if_pos hv]
    exact PhysInv_append_nonfloor st h _ (by simp)
  · rw [if_neg hv]
    by_cases hf : p.semanticLabel = "floor"
    · rw [if_pos hf]
      cases hp : p.probeHit with
      | none => exact h
      | some hit =>
        dsimp only
        obtain ⟨h1, h2, h3⟩ := h
        refine ⟨?_, ?_, ?_⟩
        · intro c hc
          rcases List.mem_append.mp hc with hc | hc
          · exact Nat.lt_succ_of_lt (h1 c ((List.filter_sublist _).mem hc))
          · simp only [List.mem_singleton] at hc
            subst hc
            simp
        · dsimp only
          rw [List.map_append, List.nodup_append]
          refine ⟨((List.filter_sublist _).map Prod.fst).nodup h2,
            List.nodup_singleton _, ?_⟩
          intro a ha hb
          simp only [List.map_cons, List.map_nil, List.mem_singleton] at hb
          subst hb
          rcases List.mem_map.mp ha with ⟨c, hc, hfst⟩
          exact absurd (hfst ▸ h1 c ((List.filter_sublist _).mem hc)) (lt_irrefl _)
        · refine ⟨⟨.floor, 10, 0, 10, 0, hit.y, 0, 1/2, Quat.ident⟩, ?_, rfl⟩
          unfold floorColliders
          dsimp only
          rw [List.filter_append, floorColliders_strip st ⟨h1, h2, h3⟩]
          rfl
    · rw [if_neg hf]
      exact h

lemma PhysInv_prelude (st : PhysState) (h : PhysInv st) : PhysInv (physPrelude st) := by
  unfold physPrelude
  dsimp only
  repeat' split
  all_goals exact h

lemma PhysInv_targetBlock (inp : PhysInput) (st : PhysState) (h : PhysInv st) :
    PhysInv (physTargetBlock inp st) := by
  unfold physTargetBlock
  cases inp.target with
  | none => exact h
  | some t =>
    dsimp only
    split
    · exact h
    · exact h

lemma PhysInv_stepBlock (inp : PhysInput) (st : PhysState) (h : PhysInv st) :
    PhysInv (physStepBlock inp st) := by
  unfold physStepBlock
  dsimp only
  split
  · exact h
  · exact h

lemma PhysInv_update (inp : PhysInput) (st : PhysState) (h : PhysInv st) :
    PhysInv (physUpdate inp st) := by
  unfold physUpdate
  split
  · exact h
  · dsimp only
    split
    · exact PhysInv_prelude st h
    · have hF : PhysInv
          (if inp.gamepadPresent && inp.triggerDown then
            finalizeFurniturePosition (physPrelude st)
          else physPrelude st) := by
        split
        · exact PhysInv_finalize _ (PhysInv_prelude st h)
        · exact PhysInv_prelude st h
      have hT := PhysInv_targetBlock inp _ hF
      split
      · exact hT
      · exact PhysInv_stepBlock inp _ hT

lemma PhysInv_arrive (wp : Vec3) (st : PhysState) (h : PhysInv st) :
    PhysInv (modelArrive wp st) := by
  unfold modelArrive
  split
  · exact h
  · exact h

lemma PhysInv_run (m : ℚ) (evs : List PhysEvent) : PhysInv (runPhys m evs) := by
  unfold runPhys
  have : ∀ (l : List PhysEvent) (st : PhysState), PhysInv st →
      PhysInv (l.foldl (fun s e => physStep e s) st) := by
    intro l
    induction l with
    | nil => intro st h; exact h
    | cons e rest ih =>
      intro st h
      refine ih _ ?_
      cases e with
      | update inp => exact PhysInv_update inp st h
      | planeAdded p => exact PhysInv_plane p st h
      | arrive wp => exact PhysInv_arrive wp st h
  exact this evs _ (PhysInv_init m)

/-- C4.  Floor collider invariant: in every state reachable from physics
initialization there is exactly one floor collider, it is the designated
one, and it sits at the visual floor's height; a floor-labelled plane whose
probe ray misses aborts the update, retaining the prior state; a probe hit
replaces the previous floor collider by exactly one slab at the probed
height and moves the visual floor there. -/
theorem floorCollider_invariant :
    (∀ (m : ℚ) (evs : List PhysEvent),
      ∃ c : Collider,
        floorColliders (runPhys m evs) = [((runPhys m evs).floorColliderId, c)] ∧
        c.ty = (runPhys m evs).floorY) ∧
    (∀ (p : PlaneInfo) (st : PhysState),
      p.orientation ≠ .vertical → p.semanticLabel = "floor" → p.probeHit = none →
      onPlaneAdded p st = st) ∧
    (∀ (m : ℚ) (evs : List PhysEvent) (p : PlaneInfo) (hit : Vec3),
      p.orientation ≠ .vertical → p.semanticLabel = "floor" → p.probeHit = some hit →
      floorColliders (onPlaneAdded p (runPhys m evs))
          = [((onPlaneAdded p (runPhys m evs)).floorColliderId,
              ⟨.floor, 10, 0, 10, 0, hit.y, 0, 1/2, Quat.ident⟩)] ∧
      (onPlaneAdded p (runPhys m evs)).floorY = hit.y) := by
  refine ⟨?_, ?_, ?_⟩
  · intro m evs
    exact (PhysInv_run m evs).2.2
  · intro p st hv hf hp
    unfold onPlaneAdded
    rw [if_neg hv, if_pos hf, hp]
  · intro m evs p hit hv hf hp
    obtain ⟨h1, h2, h3⟩ := PhysInv_run m evs
    unfold onPlaneAdded
    rw [if_neg hv, if_pos hf, hp]
    dsimp only
    constructor
    · unfold floorColliders
      dsimp only
      rw [List.filter_append, floorColliders_strip (runPhys m evs) ⟨h1, h2, h3⟩]
      rfl
    · rfl

/-- Witness for C4: discovering a floor plane probed at height 1.2 over the
default world yields exactly one floor collider, the designated one, at
height 1.2, with the visual floor moved there. -/
theorem floorCollider_witness :
    floorColliders (runPhys 1 [.planeAdded floorPlane12])
        = [((runPhys 1 [.planeAdded floorPlane12]).floorColliderId,
            ⟨.floor, 10, 0, 10, 0, 6/5, 0, 1/2, Quat.ident⟩)] ∧
    (runPhys 1 [.planeAdded floorPlane12]).floorY = 6/5 := by
  have h := floorCollider_invariant.2.2 1 [] floorPlane12 ⟨0, 6/5, 0⟩
    (by decide) rfl rfl
  exact h

lemma prelude_logs (st : PhysState) :
    (physPrelude st).stepLog = st.stepLog ∧
    (physPrelude st).torqueLog = st.torqueLog ∧
    (physPrelude st).transImpulseLog = st.transImpulseLog := by
  unfold physPrelude
  dsimp only
  repeat' split
  all_goals exact ⟨rfl, rfl, rfl⟩

lemma finalize_logs (st : PhysState) :
    (finalizeFurniturePosition st).stepLog = st.stepLog ∧
    (finalizeFurniturePosition st).torqueLog = st.torqueLog ∧
    (finalizeFurniturePosition st).transImpulseLog = st.transImpulseLog := by
  unfold finalizeFurniturePosition
  cases st.furnitureModel with
  | none => exact ⟨rfl, rfl, rfl⟩
  | some m => exact ⟨rfl, rfl, rfl⟩

lemma targetBlock_logs (inp : PhysInput) (st : PhysState) :
    (physTargetBlock inp st).stepLog = st.stepLog ∧
    (physTargetBlock inp st).torqueLog = st.torqueLog := by
  unfold physTargetBlock
  cases inp.target with
  | none => exact ⟨rfl, rfl⟩
  | some t =>
    dsimp only
    split
    · exact ⟨rfl, rfl⟩
    · exact ⟨rfl, rfl⟩

lemma targetBlock_trans_none (inp : PhysInput) (st : PhysState)
    (h : inp.target = none) :
    (physTargetBlock inp st).transImpulseLog = st.transImpulseLog := by
  unfold physTargetBlock
  rw [h]

lemma targetBlock_trans_some (inp : PhysInput) (st : PhysState) (t : Vec3)
    (h : inp.target = some t) :
    (physTargetBlock inp st).transImpulseLog = st.transImpulseLog ∨
    (physTargetBlock inp st).transImpulseLog
      = st.transImpulseLog ++ [(t.sub st.rigidBody.pos, st.rigidBody.mass)] := by
  unfold physTargetBlock
  rw [h]
  dsimp only
  split
  · exact Or.inl rfl
  · exact Or.inr rfl

lemma stepBlock_logs (inp : PhysInput) (st : PhysState) :
    (physStepBlock inp st).stepLog = st.stepLog ++ [inp.delta] ∧
    (physStepBlock inp st).torqueLog
      = st.torqueLog ++ [(⟨0, inp.thumbstickX * (-(6/100)), 0⟩ : Vec3)] ∧
    (physStepBlock inp st).transImpulseLog = st.transImpulseLog := by
  unfold physStepBlock
  dsimp only
  split
  · exact ⟨rfl, rfl, rfl⟩
  · exact ⟨rfl, rfl, rfl⟩

lemma physUpdate_eq (inp : PhysInput) (st : PhysState)
    (hr : st.ready = true) (hcp : inp.controllerPresent = true) :
    physUpdate inp st
      = (if !inp.gamepadPresent then
          physTargetBlock inp
            (if inp.gamepadPresent && inp.triggerDown then
              finalizeFurniturePosition (physPrelude st)
            else physPrelude st)
        else
          physStepBlock inp
            (physTargetBlock inp
              (if inp.gamepadPresent && inp.triggerDown then
                finalizeFurniturePosition (physPrelude st)
              else physPrelude st))) := by
  unfold physUpdate
  rw [hr, hcp]
  rfl

/-- C6 (amended).  On every frame after physics initialization on which the
right controller exposes a target-ray pose and a gamepad, the world is
stepped exactly once using the frame's elapsed time as the step size, the
thumbstick-proportional torque impulse about the vertical axis is applied
exactly once regardless of whether a target point exists, and a translation
impulse can be applied only while a target exists (at most one per frame).
A frame without a target-ray pose performs no step at all. -/
theorem stepTorque_amended (inp : PhysInput) (st : PhysState)
    (hr : st.ready = true) (hcp : inp.controllerPresent = true)
    (hgp : inp.gamepadPresent = true) :
    (physUpdate inp st).stepLog = st.stepLog ++ [inp.delta] ∧
    (physUpdate inp st).torqueLog
      = st.torqueLog ++ [(⟨0, inp.thumbstickX * (-(6/100)), 0⟩ : Vec3)] ∧
    (inp.target = none →
      (physUpdate inp st).transImpulseLog = st.transImpulseLog) ∧
    (∀ t, inp.target = some t →
      (physUpdate inp st).transImpulseLog = st.transImpulseLog ∨
      ∃ e, (physUpdate inp st).transImpulseLog = st.transImpulseLog ++ [e]) := by
  have heq : physUpdate inp st
      = physStepBlock inp
          (physTargetBlock inp
            (if inp.gamepadPresent && inp.triggerDown then
              finalizeFurniturePosition (physPrelude st)
            else physPrelude st)) := by
    rw [physUpdate_eq inp st hr hcp, hgp]
    rfl
  have hFlogs :
      (if inp.gamepadPresent && inp.triggerDown then
        finalizeFurniturePosition (physPrelude st)
      else physPrelude st).stepLog = st.stepLog ∧
      (if inp.gamepadPresent && inp.triggerDown then
        finalizeFurniturePosition (physPrelude st)
      else physPrelude st).torqueLog = st.torqueLog ∧
      (if inp.gamepadPresent && inp.triggerDown then
        finalizeFurniturePosition (physPrelude st)
      else physPrelude st).transImpulseLog = st.transImpulseLog := by
    split
    · exact ⟨(finalize_logs _).1.trans (prelude_logs st).1,
        (finalize_logs _).2.1.trans (prelude_logs st).2.1,
        (finalize_logs _).2.2.trans (prelude_logs st).2.2⟩
    · exact prelude_logs st
  rw [heq]
  refine ⟨?_, ?_, ?_, ?_⟩
  · rw [(stepBlock_logs _ _).1, (targetBlock_logs _ _).1, hFlogs.1]
  · rw [(stepBlock_logs _ _).2.1, (targetBlock_logs _ _).2, hFlogs.2.1]
  · intro ht
    rw [(stepBlock_logs _ _).2.2, targetBlock_trans_none _ _ ht, hFlogs.2.2]
  · intro t ht
    rcases targetBlock_trans_some inp _ t ht with hc | hc
    · left
      rw [(stepBlock_logs _ _).2.2, hc, hFlogs.2.2]
    · right
      rw [(stepBlock_logs _ _).2.2, hc, hFlogs.2.2]
      exact ⟨_, rfl⟩

/-- Counterexample for C6: a frame after physics initialization on which
the right controller exposes no target-ray pose returns before the physics
step, so the world is not stepped exactly once on that frame (the step log
stays empty) and no torque is applied either. -/
theorem stepPerFrame_counterexample :
    (physInit 1).ready = true ∧
    (physUpdate physInpNoController (physInit 1)).stepLog = [] ∧
    (physUpdate physInpNoController (physInit 1)).torqueLog = [] :=
  ⟨rfl, rfl, rfl⟩

/-- Witness for C6: a full frame with controller and gamepad and no target
steps the world once with the frame delta, logs one torque impulse, and
applies no translation impulse. -/
theorem stepTorque_witness :
    (physUpdate physInpBase (physInit 1)).stepLog = [1/60] ∧
    (physUpdate physInpBase (physInit 1)).torqueLog = [(⟨0, 0, 0⟩ : Vec3)] ∧
    (physUpdate physInpBase (physInit 1)).transImpulseLog = [] := by
  have h := stepTorque_amended physInpBase (physInit 1) rfl rfl rfl
  refine ⟨?_, ?_, ?_⟩
  · simpa [physInit, physInpBase] using h.1
  · simpa [physInit, physInpBase] using h.2.1
  · simpa [physInit] using h.2.2.1 rfl

/-- C7.  finalize with no attached model is a silent no-op (the function is
total, so it cannot throw, and the state — in particular the body and
collider counts — is unchanged); with a model attached it reparents the
model under the scene preserving its world transform and enabling shadows,
creates exactly one fixed body at the carrying body's current translation
and rotation plus one matching collider, and resets the carrying body to
the spawn position with zero linear and angular velocity (its rotation is
left untouched). -/
theorem finalize_correct (st : PhysState) :
    (st.furnitureModel = none →
      finalizeFurniturePosition st = st ∧
      (finalizeFurniturePosition st).colliders.length = st.colliders.length ∧
      (finalizeFurniturePosition st).fixedBodies.length = st.fixedBodies.length) ∧
    (∀ m, st.furnitureModel = some m →
      (finalizeFurniturePosition st).furnitureModel = none ∧
      (finalizeFurniturePosition st).placedModels
        = st.placedModels ++ [{ m with parent := .scene, castShadow := true }] ∧
      (finalizeFurniturePosition st).fixedBodies
        = st.fixedBodies ++ [⟨st.rigidBody.pos, st.rigidBody.quat⟩] ∧
      (finalizeFurniturePosition st).colliders
        = st.colliders ++
            [(st.nextColliderId,
              ⟨.furniture, 1/2, 1/2, 1/2, st.rigidBody.pos.x, st.rigidBody.pos.y,
               st.rigidBody.pos.z, 1/2, st.rigidBody.quat⟩)] ∧
      (finalizeFurniturePosition st).rigidBody.pos = ⟨0, 3, 0⟩ ∧
      (finalizeFurniturePosition st).rigidBody.linvel = ⟨0, 0, 0⟩ ∧
      (finalizeFurniturePosition st).rigidBody.angvel = ⟨0, 0, 0⟩ ∧
      (finalizeFurniturePosition st).rigidBody.quat = st.rigidBody.quat ∧
      (finalizeFurniturePosition st).rigidBody.mass = st.rigidBody.mass) := by
  constructor
  · intro hm
    have heq : finalizeFurniturePosition st = st := by
      unfold finalizeFurniturePosition
      rw [hm]
    exact ⟨heq, by rw [heq], by rw [heq]⟩
  · intro m hm
    have heq : finalizeFurniturePosition st
        = { st with
            furnitureModel := none,
            placedModels := st.placedModels ++
              [{ m with parent := .scene, castShadow := true }],
            fixedBodies := st.fixedBodies ++
              [⟨st.rigidBody.pos, st.rigidBody.quat⟩],
            colliders := st.colliders ++
              [(st.nextColliderId,
                ⟨.furniture, 1/2, 1/2, 1/2, st.rigidBody.pos.x, st.rigidBody.pos.y,
                 st.rigidBody.pos.z, 1/2, st.rigidBody.quat⟩)],
            nextColliderId := st.nextColliderId + 1,
            rigidBody := { st.rigidBody with
              pos := ⟨0, 3, 0⟩,
              linvel := ⟨0, 0, 0⟩,
              angvel := ⟨0, 0, 0⟩ } } := by
      unfold finalizeFurniturePosition
      rw [hm]
    rw [heq]
    exact ⟨rfl, rfl, rfl, rfl, rfl, rfl, rfl, rfl, rfl⟩

/-- Witness for C7: finalize on the initial state (no model) is the
identity, and finalize on the state carrying a loaded model at the spawn
pose commits one fixed body there, reparents the model with its world
transform intact, and resets the body with zero velocities. -/
theorem finalize_witness :
    finalizeFurniturePosition (physInit 1) = physInit 1 ∧
    (finalizeFurniturePosition stWithModel).fixedBodies
      = [⟨⟨0, 3, 0⟩, Quat.ident⟩] ∧
    (finalizeFurniturePosition stWithModel).placedModels
      = [{ parent := .scene, worldPos := ⟨1, 2, 3⟩, castShadow := true }] ∧
    (finalizeFurniturePosition stWithModel).furnitureModel = none ∧
    (finalizeFurniturePosition stWithModel).rigidBody.linvel = ⟨0, 0, 0⟩ := by
  have h0 := (finalize_correct (physInit 1)).1 rfl
  have h := (finalize_correct stWithModel).2
    { parent := .cube, worldPos := ⟨1, 2, 3⟩, castShadow := false } rfl
  refine ⟨h0.1, ?_, ?_, h.1, h.2.2.2.2.2.1⟩
  · have := h.2.2.1
    simpa [stWithModel, physInit] using this
  · have := h.2.1
    simpa [stWithModel, physInit] using this

lemma axis_sub (a b : ℝ) : RVec3.subv ⟨0, 0, a⟩ ⟨0, 0, b⟩ = ⟨0, 0, a - b⟩ := by
  unfold RVec3.subv
  norm_num

lemma axis_len (a : ℝ) : RVec3.len ⟨0, 0, a⟩ = |a| := by
  unfold RVec3.len
  rw [show (0 : ℝ) ^ 2 + 0 ^ 2 + a ^ 2 = a ^ 2 by ring, Real.sqrt_sq_eq_abs]

lemma cast_target_sub (z : ℤ) : (5 : ℝ) - (z : ℝ) / 100 = ((500 - z : ℤ) : ℝ) / 100 := by
  push_cast
  ring

lemma int_abs_div (d : ℤ) : |(d : ℝ) / 100| = (d.natAbs : ℝ) / 100 := by
  rw [abs_div]
  have h1 : |(d : ℝ)| = (d.natAbs : ℝ) := by
    rw [Int.cast_natAbs, Int.cast_abs]
  rw [h1]
  norm_num

lemma distToTarget_embed (p : ℤ × ℤ) :
    distToTarget (zEmbed p) = ((500 - p.1).natAbs : ℝ) / 100 := by
  unfold distToTarget zEmbed
  dsimp only
  rw [axis_sub, axis_len, cast_target_sub, int_abs_div]

lemma inv_cancel_div (w : ℝ) (hw : w ≠ 0) : 1 / (w / 100) * (w / 100) = 1 :=
  one_div_mul_cancel (div_ne_zero hw (by norm_num))

lemma inv_cancel_div_neg (w : ℝ) (hw : w ≠ 0) : 1 / (-w / 100) * (w / 100) = -1 := by
  field_simp
  ring

lemma transportTick_axis (z v : ℤ) :
    transportTick (1/10) ⟨0, 0, 5⟩ (zEmbed (z, v)) = zEmbed (zTick (z, v)) := by
  have hdir : RVec3.subv ⟨0, 0, 5⟩ (zEmbed (z, v)).pos
      = ⟨0, 0, ((500 - z : ℤ) : ℝ) / 100⟩ := by
    show RVec3.subv ⟨0, 0, 5⟩ ⟨0, 0, (z : ℝ) / 100⟩ = _
    rw [axis_sub, cast_target_sub]
  have hlen : (RVec3.subv ⟨0, 0, 5⟩ (zEmbed (z, v)).pos).len
      = (((500 - z : ℤ)).natAbs : ℝ) / 100 := by
    rw [hdir, axis_len, int_abs_div]
  have hiff : ((RVec3.subv ⟨0, 0, 5⟩ (zEmbed (z, v)).pos).len < 1/100)
      ↔ ((500 - z : ℤ).natAbs < 1) := by
    rw [hlen]
    rw [div_lt_div_right (by norm_num : (0 : ℝ) < 100)]
    constructor
    · intro h
      exact_mod_cast h
    · intro h
      exact_mod_cast h
  unfold transportTick transportControl
  dsimp only
  by_cases hd : (500 - z : ℤ).natAbs < 1
  · rw [if_pos (hiff.mpr hd)]
    unfold zTick
    dsimp only
    rw [if_pos hd]
    unfold zEmbed RVec3.addv RVec3.smul RVec3.zero
    dsimp only
    simp only [CarryBody.mk.injEq, RVec3.mk.injEq]
    norm_num
  · rw [if_neg (fun hlt => hd (hiff.mp hlt))]
    unfold zTick
    dsimp only
    rw [if_neg hd]
    have hdne : ((500 - z : ℤ) : ℝ) ≠ 0 := by
      intro h0
      apply hd
      have : (500 - z : ℤ) = 0 := by exact_mod_cast h0
      rw [this]
      decide
    rw [hlen, hdir]
    by_cases hpos : (0 : ℤ) < 500 - z
    · rw [if_pos hpos]
      have habs : (((500 - z : ℤ)).natAbs : ℝ) = ((500 - z : ℤ) : ℝ) := by
        rw [Int.cast_natAbs, Int.cast_abs]
        exact abs_of_pos (by exact_mod_cast hpos)
      unfold zEmbed RVec3.addv RVec3.smul
      dsimp only
      simp only [CarryBody.mk.injEq, RVec3.mk.injEq]
      rw [habs, inv_cancel_div _ hdne]
      push_cast
      constructor
      · refine ⟨by norm_num, by norm_num, ?_⟩
        ring
      · refine ⟨⟨by norm_num, by norm_num, ?_⟩, trivial⟩
        ring
    · rw [if_neg hpos]
      have hneg : ((500 - z : ℤ) : ℝ) < 0 := by
        have hle : (500 - z : ℤ) ≤ 0 := le_of_not_lt hpos
        have hlt : (500 - z : ℤ) < 0 := lt_of_le_of_ne hle (by exact_mod_cast hdne)
        exact_mod_cast hlt
      have habs : (((500 - z : ℤ)).natAbs : ℝ) = -((500 - z : ℤ) : ℝ) := by
        rw [Int.cast_natAbs, Int.cast_abs]
        exact abs_of_neg hneg
      unfold zEmbed RVec3.addv RVec3.smul
      dsimp only
      simp only [CarryBody.mk.injEq, RVec3.mk.injEq]
      rw [habs, inv_cancel_div_neg _ hdne]
      push_cast
      constructor
      · refine ⟨by norm_num, by norm_num, ?_⟩
        ring
      · refine ⟨⟨by norm_num, by norm_num, ?_⟩, trivial⟩
        ring

lemma tickIter_eq (n : ℕ) : tickIter n = zEmbed (zIter n) := by
  induction n with
  | zero =>
    show ({ pos := ⟨0, 0, 0⟩, vel := ⟨0, 0, 0⟩, mass := 1 } : CarryBody) = zEmbed (0, 0)
    unfold zEmbed
    simp only [CarryBody.mk.injEq, RVec3.mk.injEq]
    norm_num
  | succ n ih =>
    show transportTick (1/10) ⟨0, 0, 5⟩ (tickIter n) = zEmbed (zIter (n + 1))
    rw [ih]
    exact transportTick_axis (zIter n).1 (zIter n).2

/-- Counterexample for C5: in the spec's arrival scenario (body from rest
at the origin, target at distance 5 on the z axis, fixed timestep 0.1,
unit mass), after 31 ticks the body is 0.04 from the target — still above
the arrival epsilon — and the 32nd tick moves it to 0.28 away: the
accumulated impulses overshoot, so repeated ticks do not monotonically
reduce the distance to the target. -/
theorem transport_counterexample :
    (1/100 : ℝ) ≤ distToTarget (tickIter 31) ∧
    distToTarget (tickIter 31) < distToTarget (tickIter 32) := by
  have h31 : zIter 31 = (496, 31) := by decide
  have h32 : zIter 32 = (528, 32) := by decide
  rw [tickIter_eq, tickIter_eq, h31, h32, distToTarget_embed, distToTarget_embed]
  norm_num

lemma tick_arrived (dt : ℝ) (target : RVec3) (b : CarryBody)
    (h : (target.subv b.pos).len < 1/100) :
    (transportTick dt target b).vel = RVec3.zero ∧
    (transportTick dt target b).pos = b.pos := by
  obtain ⟨⟨px, py, pz⟩, bv, bm⟩ := b
  unfold transportTick transportControl
  dsimp only
  rw [if_pos h]
  dsimp only
  refine ⟨rfl, ?_⟩
  show RVec3.addv ⟨px, py, pz⟩ (RVec3.smul dt RVec3.zero) = ⟨px, py, pz⟩
  unfold RVec3.addv RVec3.smul RVec3.zero
  dsimp only
  simp only [RVec3.mk.injEq]
  refine ⟨by ring, by ring, by ring⟩

/-- C5 (amended).  The per-frame control law of the transport controller:
when the distance from the carried body to the resolved target is below the
arrival epsilon 0.01, the linear velocity is set to exactly zero and no
translation impulse is applied, and under the impulse-integration step the
body stays exactly where it is with zero velocity on every subsequent tick
absent a new target; otherwise the applied impulse equals the unit
displacement vector scaled by the constant speed 0.1 and by the body's
mass.  Monotone convergence of the distance, however, does not hold (see
the accompanying counterexample): accumulated impulses overshoot the
target. -/
theorem transportControl_amended (dt : ℝ) (target : RVec3) (b : CarryBody) :
    ((target.subv b.pos).len < 1/100 →
      transportControl target b = (some RVec3.zero, none) ∧
      (transportTick dt target b).vel = RVec3.zero ∧
      (transportTick dt target b).pos = b.pos) ∧
    (¬ (target.subv b.pos).len < 1/100 →
      transportControl target b
        = (none, some (RVec3.smul b.mass
            (RVec3.smul (1/10)
              (RVec3.smul (1 / (target.subv b.pos).len) (target.subv b.pos)))))) ∧
    ((target.subv b.pos).len < 1/100 → ∀ n, 1 ≤ n →
      ((transportTick dt target)^[n] b).vel = RVec3.zero ∧
      ((transportTick dt target)^[n] b).pos = b.pos) := by
  refine ⟨?_, ?_, ?_⟩
  · intro h
    refine ⟨?_, tick_arrived dt target b h⟩
    unfold transportControl
    dsimp only
    rw [if_pos h]
  · intro h
    unfold transportControl
    dsimp only
    rw [if_neg h]
  · intro h n hn
    induction n, hn using Nat.le_induction with
    | base =>
      rw [Function.iterate_one]
      exact tick_arrived dt target b h
    | succ n hn ih =>
      rw [Function.iterate_succ_apply']
      have hstill : (target.subv ((transportTick dt target)^[n] b).pos).len < 1/100 := by
        rw [ih.2]
        exact h
      have := tick_arrived dt target ((transportTick dt target)^[n] b) hstill
      exact ⟨this.1, this.2.trans ih.2⟩

/-- Witness for C5: from the origin toward a target 5 away, the control law
emits the impulse of length 0.1 times the mass 2 along the axis; at the
target itself it zeroes the velocity and leaves the position fixed. -/
theorem transportControl_witness :
    transportControl ⟨0, 0, 5⟩ { pos := ⟨0, 0, 0⟩, vel := ⟨0, 0, 0⟩, mass := 2 }
      = (none, some ⟨0, 0, 1/5⟩) ∧
    (transportTick 1 ⟨0, 0, 5⟩
        { pos := ⟨0, 0, 5⟩, vel := ⟨9, 9, 9⟩, mass := 2 }).vel = RVec3.zero ∧
    (transportTick 1 ⟨0, 0, 5⟩
        { pos := ⟨0, 0, 5⟩, vel := ⟨9, 9, 9⟩, mass := 2 }).pos = ⟨0, 0, 5⟩ := by
  have hfar : ¬ (RVec3.subv ⟨0, 0, 5⟩
      ({ pos := ⟨0, 0, 0⟩, vel := ⟨0, 0, 0⟩, mass := 2 } : CarryBody).pos).len < 1/100 := by
    show ¬ (RVec3.subv ⟨0, 0, 5⟩ ⟨0, 0, 0⟩).len < 1/100
    rw [axis_sub, axis_len]
    norm_num
  have hnear : (RVec3.subv ⟨0, 0, 5⟩
      ({ pos := ⟨0, 0, 5⟩, vel := ⟨9, 9, 9⟩, mass := 2 } : CarryBody).pos).len < 1/100 := by
    show (RVec3.subv ⟨0, 0, 5⟩ ⟨0, 0, 5⟩).len < 1/100
    rw [axis_sub, axis_len]
    norm_num
  have h1 := (transportControl_amended 1 ⟨0, 0, 5⟩
    { pos := ⟨0, 0, 0⟩, vel := ⟨0, 0, 0⟩, mass := 2 }).2.1 hfar
  have h2 := (transportControl_amended 1 ⟨0, 0, 5⟩
    { pos := ⟨0, 0, 5⟩, vel := ⟨9, 9, 9⟩, mass := 2 }).1 hnear
  refine ⟨?_, h2.2.1, h2.2.2⟩
  rw [h1]
  have : RVec3.subv ⟨0, 0, 5⟩
      ({ pos := ⟨0, 0, 0⟩, vel := ⟨0, 0, 0⟩, mass := 2 } : CarryBody).pos = ⟨0, 0, 5⟩ := by
    show RVec3.subv ⟨0, 0, 5⟩ ⟨0, 0, 0⟩ = _
    rw [axis_sub]
    norm_num
  rw [this, axis_len]
  unfold RVec3.smul
  dsimp only
  simp only [Prod.mk.injEq, Option.some.injEq, RVec3.mk.injEq]
  norm_num [abs_of_pos]
